import Mathlib

/-!
# sqlite3pp: a typed marshalling layer over SQLite

A shallow embedding of `src/sqlite3pp.h` (class `Sqlite3pp`).

* The C++ object state (`mtx_`, `closed_`, `auto_commit_`, `conn_`) is the record `Conn`.
* The SQLite engine is external.  Everything it answers during one call is supplied as
  input data (`StmtScript`, `OpenScript`, `Conv`), so a theorem quantified over the
  scripts holds for every behaviour of the engine.
* Every call that leaves the class (mutex, filesystem, SQLite C API) is recorded, in
  program order, as an `Event`; an operation returns its result, the new object state and
  the list of events it issued.
* A C++ exception is the constructor `Res.throw`, carrying the `what()` text.
-/

namespace Sqlite3pp

/-! ## Constants of `sqlite3.h` -/

def SQLITE_OK : Int := 0
def SQLITE_MISUSE : Int := 21
def SQLITE_ROW : Int := 100
def SQLITE_DONE : Int := 101
def SQLITE_OPEN_READWRITE : Nat := 2
def SQLITE_OPEN_CREATE : Nat := 4
def SQLITE_OPEN_MEMORY : Nat := 128

/-! ## Machine integers -/

/-- Two's-complement reading of the low `bits` bits of `x` (conversion to a signed type). -/
def wrapSigned (bits : Nat) (x : Int) : Int :=
  (x + 2 ^ (bits - 1)) % 2 ^ bits - 2 ^ (bits - 1)

/-- The low `bits` bits of `x` read as a natural number (conversion to an unsigned type). -/
def wrapUnsigned (bits : Nat) (x : Int) : Int :=
  x % 2 ^ bits

/-- The integral types of width 8, 16, 32 and 64 bits, and `bool`
(`std::is_integral_v` holds for each of them). -/
inductive IntType where
  | bool
  | i8
  | u8
  | i16
  | u16
  | i32
  | u32
  | i64
  | u64
  deriving DecidableEq, Repr

/-- The value of `sizeof(T)`, in bytes. -/
def IntType.sizeof : IntType → Nat
  | .bool => 1
  | .i8 => 1
  | .u8 => 1
  | .i16 => 2
  | .u16 => 2
  | .i32 => 4
  | .u32 => 4
  | .i64 => 8
  | .u64 => 8

/-- The values of the type. -/
def IntType.inRange : IntType → Int → Prop
  | .bool, v => v = 0 ∨ v = 1
  | .i8, v => -2 ^ 7 ≤ v ∧ v < 2 ^ 7
  | .u8, v => 0 ≤ v ∧ v < 2 ^ 8
  | .i16, v => -2 ^ 15 ≤ v ∧ v < 2 ^ 15
  | .u16, v => 0 ≤ v ∧ v < 2 ^ 16
  | .i32, v => -2 ^ 31 ≤ v ∧ v < 2 ^ 31
  | .u32, v => 0 ≤ v ∧ v < 2 ^ 32
  | .i64, v => -2 ^ 63 ≤ v ∧ v < 2 ^ 63
  | .u64, v => 0 ≤ v ∧ v < 2 ^ 64

instance IntType.decInRange (t : IntType) (v : Int) : Decidable (t.inRange v) := by
  cases t <;> unfold IntType.inRange <;> infer_instance

/-- Integral conversion of an `int` or `int64_t` value to the type, as the assignment
`t = sqlite3_column_int(vm, column)` performs it: a conversion to `bool` tests for
non-zero, every other conversion keeps the low bits. -/
def IntType.convert : IntType → Int → Int
  | .bool, x => if x = 0 then 0 else 1
  | .i8, x => wrapSigned 8 x
  | .u8, x => wrapUnsigned 8 x
  | .i16, x => wrapSigned 16 x
  | .u16, x => wrapUnsigned 16 x
  | .i32, x => wrapSigned 32 x
  | .u32, x => wrapUnsigned 32 x
  | .i64, x => wrapSigned 64 x
  | .u64, x => wrapUnsigned 64 x

/-! ## Values of the engine -/

/-- A floating-point value is carried as its bit pattern; its arithmetic is not modelled. -/
abbrev Flt := Nat

/-- The storage classes of SQLite. -/
inductive Value where
  | null
  | integer (i : Int)
  | real (x : Flt)
  | text (s : String)
  | blob (b : List Nat)
  deriving DecidableEq, Repr

/-- One result row: the values of its columns, left to right. -/
abbrev Row := List Value

/-- What the engine does and the wrapper does not decide: the result of a column accessor
applied to a value of another storage class, and the two floating-point conversions of
C++ (`float` to `double` when binding, `double` to `float` when decoding). -/
structure Conv where
  int64 : Value → Int
  real : Value → Flt
  text : Value → String
  blob : Value → List Nat
  widen : Flt → Flt
  narrow : Flt → Flt

/-- The accessor `sqlite3_column_int64`: an integer is returned as stored, NULL reads as 0. -/
def sqlite3_column_int64 (cv : Conv) : Value → Int
  | .integer i => i
  | .null => 0
  | v => cv.int64 v

/-- The accessor `sqlite3_column_int`: the low 32 bits of what `sqlite3_column_int64` returns. -/
def sqlite3_column_int (cv : Conv) (v : Value) : Int :=
  wrapSigned 32 (sqlite3_column_int64 cv v)

/-- The accessor `sqlite3_column_double`: NULL reads as 0.0. -/
def sqlite3_column_double (cv : Conv) : Value → Flt
  | .real x => x
  | .null => 0
  | v => cv.real v

/-- The accessor `sqlite3_column_text` with `sqlite3_column_bytes`: NULL reads as a null pointer of
length 0, from which `std::string(s, len)` builds the empty string. -/
def sqlite3_column_text (cv : Conv) : Value → String
  | .text s => s
  | .null => ""
  | v => cv.text v

/-- The accessor `sqlite3_column_blob` with `sqlite3_column_bytes`: NULL reads as no bytes. -/
def sqlite3_column_blob (cv : Conv) : Value → List Nat
  | .blob b => b
  | .null => []
  | v => cv.blob v

/-- The value under the cursor at a column index.  SQLite answers an index outside the
result set like a NULL column. -/
def columnValue (row : Row) (column : Nat) : Value :=
  row.getD column Value.null

/-! ## Calls and their record -/

/-- The binding functions of SQLite the wrapper calls, with the value passed. -/
inductive BindCall where
  | bind_int (v : Int)
  | bind_int64 (v : Int)
  | bind_double (x : Flt)
  | bind_text_z (s : String)
  | bind_text (s : String)
  | bind_text_bytes (b : List Nat)
  | bind_null
  deriving DecidableEq, Repr

/-- The value SQLite stores for a bound parameter: `sqlite3_bind_int` widens its `int`
to 64 bits, keeping the value. -/
def BindCall.stored : BindCall → Value
  | .bind_int v => .integer v
  | .bind_int64 v => .integer v
  | .bind_double x => .real x
  | .bind_text_z s => .text s
  | .bind_text s => .text s
  | .bind_text_bytes b => .blob b
  | .bind_null => .null

/-- The column accessors of SQLite the wrapper calls. -/
inductive Accessor where
  | column_int
  | column_int64
  | column_double
  | column_text
  | column_blob
  | column_bytes
  deriving DecidableEq, Repr

/-- One call leaving the class, with the result code the engine gave where the code
reads it. -/
inductive Event where
  | lock
  | unlock
  | mk_parent_dir (path : String)
  | open_v2 (name : String) (mode : Nat) (rc : Int)
  | close_v2
  | busy_timeout (ms : Int)
  | errmsg
  | prepare_v3 (sql : String) (rc : Int)
  | bind (param_no : Nat) (call : BindCall) (rc : Int)
  | step (rc : Int)
  | column (acc : Accessor) (col : Nat)
  | finalize
  deriving DecidableEq, Repr

/-- Outcome of a C++ call: a normal return, or an exception with its `what()` text. -/
inductive Res (α : Type) where
  | ok (val : α)
  | throw (what : String)
  deriving DecidableEq, Repr

/-- A computation of the wrapper: its outcome and the calls it issued, in order. -/
abbrev Act (α : Type) := Res α × List Event

/-- A normal return without any call. -/
def Act.pure {α : Type} (a : α) : Act α := (Res.ok a, [])

/-- One call whose result the code does not read. -/
def Act.emit (e : Event) : Act Unit := (Res.ok (), [e])

/-- Sequencing: an exception in the first part skips the rest and keeps the calls made so
far. -/
def Act.bind {α β : Type} (a : Act α) (f : α → Act β) : Act β :=
  match a with
  | (Res.throw e, ev) => (Res.throw e, ev)
  | (Res.ok x, ev) => ((f x).1, ev ++ (f x).2)

/-! ## Native types -/

/-- An argument of `execute`, by its decayed static type `T0`. -/
inductive Arg where
  /-- An integral type and its value -/
  | int (t : IntType) (v : Int)
  /-- The type `float` (`single = true`) or `double` -/
  | real (single : Bool) (x : Flt)
  /-- The type `const char*` -/
  | cstr (s : String)
  /-- The type `std::string` or `std::string_view` -/
  | text (s : String)
  /-- The type `std::vector<char>` -/
  | bytes (b : List Nat)
  /-- A `std::optional<T>` holding no value -/
  | optNone
  /-- A `std::optional<T>` holding a value of type `T` -/
  | optSome (a : Arg)
  /-- Any other type -/
  | other
  deriving DecidableEq, Repr

/-- The static type of one field of a result tuple. -/
inductive FieldType where
  | int (t : IntType)
  /-- The type `float` (`single = true`) or `double` -/
  | real (single : Bool)
  /-- The type `std::string` -/
  | text
  /-- The type `std::vector<char>` -/
  | bytes
  /-- The type `std::optional<T>` -/
  | optional (t : FieldType)
  /-- Any other type -/
  | other
  deriving DecidableEq, Repr

/-- A decoded field. `absent` is the state of a `std::optional` without a value. -/
inductive Field where
  | int (v : Int)
  | real (x : Flt)
  | text (s : String)
  | bytes (b : List Nat)
  | present (f : Field)
  | absent
  deriving DecidableEq, Repr

/-- One decoded row, a `std::tuple`. -/
abbrev Record := List Field

/-- The template argument `R` of `execute`. -/
inductive RecordType where
  | tuple (fields : List FieldType)
  | void
  /-- Any type that is neither a `std::tuple` nor `void` -/
  | other
  deriving DecidableEq, Repr

/-- What `execute` returns: `std::vector<R>`, or nothing for `R = void`. -/
inductive Ret where
  | rows (rs : List Record)
  | unit
  deriving DecidableEq, Repr

/-! ## The engine's answers for one statement -/

/-- Everything the engine answers while one SQL text is compiled and run: the result code
of `sqlite3_prepare_v3`, the result code of the bind call at each parameter index, the
rows `sqlite3_step` yields with `SQLITE_ROW`, the first result code of `sqlite3_step`
that is not `SQLITE_ROW`, and the text `sqlite3_errmsg` returns. -/
structure StmtScript where
  prepareRc : Int
  bindRc : Nat → Int
  rows : List Row
  finalRc : Int
  errmsg : String
  final_ne_row : finalRc ≠ SQLITE_ROW

/-- Result code of a bind call on the statement handle `vm`; `none` is the null handle
that a failed `sqlite3_prepare_v3` leaves in `vm`. -/
def sqlite3_bind (vm : Option StmtScript) (param_no : Nat) : Int :=
  match vm with
  | some s => s.bindRc param_no
  | none => SQLITE_MISUSE

/-- The rows `sqlite3_step` yields on the handle. -/
def stmtRows (vm : Option StmtScript) : List Row :=
  match vm with
  | some s => s.rows
  | none => []

/-- The result code of `sqlite3_step` that ends the loop. -/
def stmtFinalRc (vm : Option StmtScript) : Int :=
  match vm with
  | some s => s.finalRc
  | none => SQLITE_MISUSE

/-! ## Type codec (`sqlite3pp_bind`, `sqlite3pp_column`) -/

/-- The tail of `sqlite3pp_bind` after a branch called the engine: the call with its
result code `rc`, then `if (rc != SQLITE_OK) throw`. -/
def bind_call (vm : Option StmtScript) (param_no : Nat) (call : BindCall) : Act Unit :=
  let rc := sqlite3_bind vm param_no
  (if rc ≠ SQLITE_OK then Res.throw ("sqlite3_bind err:" ++ toString rc) else Res.ok (),
   [Event.bind param_no call rc])

/-- Method `Sqlite3pp::sqlite3pp_bind` (lines 116-153). -/
def sqlite3pp_bind (vm : Option StmtScript) (cv : Conv) (param_no : Nat) : Arg → Act Unit
  | .int t v =>
      if t.sizeof ≤ 4 then bind_call vm param_no (.bind_int (wrapSigned 32 v))
      else bind_call vm param_no (.bind_int64 (wrapSigned 64 v))
  | .real single x =>
      bind_call vm param_no (.bind_double (if single then cv.widen x else x))
  | .cstr s => bind_call vm param_no (.bind_text_z s)
  | .text s => bind_call vm param_no (.bind_text s)
  | .bytes b => bind_call vm param_no (.bind_text_bytes b)
  | .optNone => bind_call vm param_no .bind_null
  | .optSome t1 =>
      -- the recursive call checks its own `rc`; the outer `rc` is still 0
      Act.bind (sqlite3pp_bind vm cv param_no t1) fun _ => Act.pure ()
  | .other => (Res.throw "Unknown sqlite3 type !!!", [])

/-- The fold `((sqlite3pp_bind(vm, index++, args)), ...)` of `execute_impl`, left to
right. -/
def bind_args (vm : Option StmtScript) (cv : Conv) : Nat → List Arg → Act Unit
  | _, [] => Act.pure ()
  | index, a :: rest =>
      Act.bind (sqlite3pp_bind vm cv index a) fun _ => bind_args vm cv (index + 1) rest

/-- Method `Sqlite3pp::sqlite3pp_column` (lines 155-181), on the row under the cursor. -/
def sqlite3pp_column (cv : Conv) (row : Row) (column : Nat) : FieldType → Act Field
  | .int t =>
      if t.sizeof ≤ 4 then
        (Res.ok (.int (t.convert (sqlite3_column_int cv (columnValue row column)))),
         [Event.column .column_int column])
      else
        (Res.ok (.int (t.convert (sqlite3_column_int64 cv (columnValue row column)))),
         [Event.column .column_int64 column])
  | .real single =>
      (Res.ok (.real (if single then cv.narrow (sqlite3_column_double cv (columnValue row column))
                      else sqlite3_column_double cv (columnValue row column))),
       [Event.column .column_double column])
  | .text =>
      (Res.ok (.text (sqlite3_column_text cv (columnValue row column))),
       [Event.column .column_text column, Event.column .column_bytes column])
  | .bytes =>
      (Res.ok (.bytes (sqlite3_column_blob cv (columnValue row column))),
       [Event.column .column_blob column, Event.column .column_bytes column])
  | .optional t0 =>
      -- `T0 t0; sqlite3pp_column(vm, column, t0); t = t0;`
      Act.bind (sqlite3pp_column cv row column t0) fun v => Act.pure (.present v)
  | .other => (Res.throw "Unknown sqlite3 type !!!", [])

/-- The fold `((sqlite3pp_column(vm, index++, e0)), ...)` over the fields of one tuple. -/
def decode_row (cv : Conv) (row : Row) : Nat → List FieldType → Act Record
  | _, [] => Act.pure []
  | index, t :: rest =>
      Act.bind (sqlite3pp_column cv row index t) fun f =>
      Act.bind (decode_row cv row (index + 1) rest) fun fs => Act.pure (f :: fs)

/-! ## The object state and the statement marshaller -/

/-- The data members of `Sqlite3pp`. `mtx_` is true while the mutex is locked; `conn_` is
the engine handle, `none` for `nullptr`. -/
structure Conn where
  mtx_ : Bool
  closed_ : Bool
  auto_commit_ : Bool
  conn_ : Option Nat
  deriving DecidableEq, Repr

/-- The constructor: `closed_(false), auto_commit_(true), conn_(nullptr)`. -/
def Conn.new : Conn :=
  { mtx_ := false, closed_ := false, auto_commit_ := true, conn_ := none }

/-- Method `Sqlite3pp::check_conn` (lines 240-244). -/
def check_conn (c : Conn) : Act Unit :=
  if c.conn_.isNone then (Res.throw "Expect connection !!!", []) else Act.pure ()

/-- Method `Sqlite3pp::throw_except` (lines 246-258); `diag` is what `sqlite3_errmsg`
answers.  With a null `conn_` it returns normally. -/
def throw_except (c : Conn) (diag : String) (what : String) : Act Unit :=
  if c.conn_.isNone then Act.pure ()
  else if what.isEmpty then (Res.throw diag, [Event.errmsg])
  else (Res.throw (what ++ ": " ++ diag), [Event.errmsg])

/-- The loop `while ((res = sqlite3_step(vm)) == SQLITE_ROW) { R e; ...;
ret.emplace_back(e); }` of the tuple branch, for the iterations that see a row. -/
def fetch_rows (cv : Conv) (fields : List FieldType) : List Row → List Record → Act (List Record)
  | [], ret => Act.pure ret
  | row :: rest, ret =>
      Act.bind (Act.emit (Event.step SQLITE_ROW)) fun _ =>
      Act.bind (decode_row cv row 0 fields) fun e =>
      fetch_rows cv fields rest (ret ++ [e])

/-- The loop `while ((res = sqlite3_step(vm)) == SQLITE_ROW) {}` of the `void` branch, for
the iterations that see a row. -/
def skip_rows : List Row → Act Unit
  | [] => Act.pure ()
  | _ :: rest => Act.bind (Act.emit (Event.step SQLITE_ROW)) fun _ => skip_rows rest

/-- The end of both loops: the call of `sqlite3_step` that does not answer `SQLITE_ROW`,
then `if (res != SQLITE_DONE) throw_except("execute")`, then `sqlite3_finalize(vm)`. -/
def finish_stmt (c : Conn) (diag : String) (res : Int) : Act Unit :=
  Act.bind (Act.emit (Event.step res)) fun _ =>
  Act.bind (if res ≠ SQLITE_DONE then throw_except c diag "execute" else Act.pure ()) fun _ =>
  Act.emit Event.finalize

/-- Lines 208-237 of `execute_impl`: the branch on `R`, run on the statement handle
`vm`; `diag` is what `sqlite3_errmsg` answers. -/
def step_and_decode (cv : Conv) (c : Conn) (diag : String) (vm : Option StmtScript) :
    RecordType → Act Ret
  | .tuple fields =>
      Act.bind (fetch_rows cv fields (stmtRows vm) []) fun ret =>
      Act.bind (finish_stmt c diag (stmtFinalRc vm)) fun _ =>
      Act.pure (Ret.rows ret)
  | .void =>
      Act.bind (skip_rows (stmtRows vm)) fun _ =>
      Act.bind (finish_stmt c diag (stmtFinalRc vm)) fun _ =>
      Act.pure Ret.unit
  | .other => (Res.throw "R type error !!!", [])

/-- Method `Sqlite3pp::execute_impl` (lines 188-238). It changes no data member. -/
def execute_impl (cv : Conv) (c : Conn) (s : StmtScript) (R : RecordType) (stmt : String)
    (args : List Arg) : Act Ret :=
  Act.bind (check_conn c) fun _ =>
  Act.bind (Act.emit (Event.prepare_v3 stmt s.prepareRc)) fun _ =>
  Act.bind (if s.prepareRc ≠ SQLITE_OK then throw_except c s.errmsg "sqlite3_prepare_v3"
            else Act.pure ()) fun _ =>
  Act.bind (bind_args (if s.prepareRc = SQLITE_OK then some s else none) cv 1 args) fun _ =>
  step_and_decode cv c s.errmsg (if s.prepareRc = SQLITE_OK then some s else none) R

/-! ## The public interface -/

/-- What a public operation leaves behind: its outcome, the data members and the calls
issued. -/
structure Outcome (α : Type) where
  result : Res α
  conn : Conn
  trace : List Event

/-- Method `Sqlite3pp::unsafe_execute` (lines 103-113): both overloads forward to
`execute_impl` and take no lock. -/
def unsafe_execute (cv : Conv) (c : Conn) (s : StmtScript) (R : RecordType) (stmt : String)
    (args : List Arg) : Outcome Ret :=
  { result := (execute_impl cv c s R stmt args).1, conn := c,
    trace := (execute_impl cv c s R stmt args).2 }

/-- Method `Sqlite3pp::execute` (lines 97-101). `none`: the mutex is already locked and
the `std::lock_guard` never gets it. -/
def execute (cv : Conv) (c : Conn) (s : StmtScript) (R : RecordType) (stmt : String)
    (args : List Arg) : Option (Outcome Ret) :=
  if c.mtx_ then none
  else
    let o := unsafe_execute cv { c with mtx_ := true } s R stmt args
    some { result := o.result, conn := { o.conn with mtx_ := false },
           trace := Event.lock :: o.trace ++ [Event.unlock] }

/-- Method `Sqlite3pp::close` (lines 82-91). -/
def close (c : Conn) : Option (Outcome Unit) :=
  if c.mtx_ then none
  else if !c.closed_ then
    if c.conn_.isSome then
      some { result := Res.ok (), conn := { c with closed_ := true, conn_ := none },
             trace := [Event.lock, Event.close_v2, Event.unlock] }
    else
      some { result := Res.ok (), conn := { c with closed_ := true },
             trace := [Event.lock, Event.unlock] }
  else
    some { result := Res.ok (), conn := c, trace := [Event.lock, Event.unlock] }

/-- The destructor `~Sqlite3pp() { close(); }`. -/
def destructor (c : Conn) : Option (Outcome Unit) := close c

/-- Method `Sqlite3pp::make_lock` (lines 93-95): the `std::lock_guard` is created on the
heap and handed to the caller, so the mutex stays locked after the return. -/
def make_lock (c : Conn) : Option (Outcome Unit) :=
  if c.mtx_ then none
  else some { result := Res.ok (), conn := { c with mtx_ := true }, trace := [Event.lock] }

/-- Everything the engine answers during one `open`: the result code of
`sqlite3_open_v2`, the handle it writes to `conn_`, the text `sqlite3_errmsg` returns
after a failed open, and the answers for the four PRAGMA statements. -/
structure OpenScript where
  rc : Int
  handle : Nat
  errmsg : String
  journal_mode : StmtScript
  synchronous : StmtScript
  case_sensitive_like : StmtScript
  locking_mode : StmtScript

/-- The four `unsafe_execute("PRAGMA ...")` calls of `open` (lines 74-77). -/
def open_pragmas (cv : Conv) (c : Conn) (e : OpenScript) : Act Ret :=
  Act.bind (execute_impl cv c e.journal_mode .void "PRAGMA journal_mode=WAL;" []) fun _ =>
  Act.bind (execute_impl cv c e.synchronous .void "PRAGMA synchronous=NORMAL;" []) fun _ =>
  Act.bind (execute_impl cv c e.case_sensitive_like .void "PRAGMA case_sensitive_like=ON;" [])
    fun _ =>
  execute_impl cv c e.locking_mode .void "PRAGMA locking_mode=NORMAL;" []

/-- The body of `Sqlite3pp::open` (lines 50-79), run with the mutex locked: outcome, data
members and calls. -/
def open_body (cv : Conv) (c : Conn) (e : OpenScript) (sourcename : String) (timeout : Int) :
    Res Unit × Conn × List Event :=
  if c.conn_.isSome then (Res.throw "sqlite3 already opened !!!", c, [])
  else
    let mode : Nat :=
      if sourcename = ":memory:" then SQLITE_OPEN_READWRITE ||| SQLITE_OPEN_MEMORY
      else SQLITE_OPEN_READWRITE ||| SQLITE_OPEN_CREATE
    let ev0 : List Event :=
      (if sourcename = ":memory:" then [] else [Event.mk_parent_dir sourcename])
        ++ [Event.open_v2 sourcename mode e.rc]
    let c1 : Conn := { c with conn_ := some e.handle }
    if e.rc ≠ SQLITE_OK then
      (Res.throw ("sqlite3_open_v2:" ++ e.errmsg), { c1 with conn_ := none },
       ev0 ++ [Event.errmsg, Event.close_v2])
    else
      let ev1 : List Event := if timeout > 0 then [Event.busy_timeout timeout] else []
      match open_pragmas cv c1 e with
      | (Res.throw what, ev2) => (Res.throw what, c1, ev0 ++ ev1 ++ ev2)
      | (Res.ok _, ev2) => (Res.ok (), { c1 with closed_ := false }, ev0 ++ ev1 ++ ev2)

/-- Method `Sqlite3pp::open` (lines 48-80). -/
def «open» (cv : Conv) (c : Conn) (e : OpenScript) (sourcename : String) (timeout : Int) :
    Option (Outcome Unit) :=
  if c.mtx_ then none
  else
    let r := open_body cv { c with mtx_ := true } e sourcename timeout
    some { result := r.1, conn := { r.2.1 with mtx_ := false },
           trace := Event.lock :: r.2.2 ++ [Event.unlock] }

/-! ## Sequences of calls on one object -/

/-- One call of the public interface together with what the engine answers during it. -/
inductive Op where
  | «open» (e : OpenScript) (sourcename : String) (timeout : Int)
  | close
  | execute (s : StmtScript) (R : RecordType) (stmt : String) (args : List Arg)

/-- The data members after one call. -/
def Op.run (cv : Conv) (c : Conn) : Op → Conn
  | .«open» e sourcename timeout =>
      match Sqlite3pp.«open» cv c e sourcename timeout with
      | some o => o.conn
      | none => c
  | .close =>
      match Sqlite3pp.close c with
      | some o => o.conn
      | none => c
  | .execute s R stmt args =>
      match Sqlite3pp.execute cv c s R stmt args with
      | some o => o.conn
      | none => c

/-- The data members after a sequence of calls on a freshly constructed object. -/
def runOps (cv : Conv) (ops : List Op) : Conn :=
  ops.foldl (Op.run cv) Conn.new

/-! ## Observations on a record of calls -/

/-- A successful `sqlite3_prepare_v3`: a prepared statement comes to life. -/
def Event.isPrepared : Event → Bool
  | .prepare_v3 _ rc => decide (rc = SQLITE_OK)
  | _ => false

/-- A call of `sqlite3_finalize`. -/
def Event.isFinalize : Event → Bool
  | .finalize => true
  | _ => false

/-- A call of one of the `sqlite3_bind_*` functions. -/
def Event.isBind : Event → Bool
  | .bind _ _ _ => true
  | _ => false

/-- A call of `sqlite3_step`. -/
def Event.isStep : Event → Bool
  | .step _ => true
  | _ => false

/-- A call of a column accessor at an index that is not below `ncols`. -/
def Event.readsOutside (ncols : Nat) : Event → Bool
  | .column _ col => decide (ncols ≤ col)
  | _ => false

/-- A call into the SQLite engine (everything but the mutex and the filesystem). -/
def Event.isEngineCall : Event → Bool
  | .lock => false
  | .unlock => false
  | .mk_parent_dir _ => false
  | _ => true

/-- The number of live prepared statements after the calls `tr`, when `before` were live
before them. -/
def liveStatements (before : Int) (tr : List Event) : Int :=
  before + (tr.countP Event.isPrepared : Nat) - (tr.countP Event.isFinalize : Nat)

/-- The bind calls of a record, in order. -/
def bindEvents (tr : List Event) : List Event :=
  tr.filter Event.isBind

/-- Whether every engine call of `tr` is made while the mutex is locked, `held` telling
whether it is locked before the first call; locking a locked mutex and unlocking an
unlocked one do not pass. -/
def guarded : Bool → List Event → Bool
  | _, [] => true
  | held, .lock :: tr => !held && guarded true tr
  | held, .unlock :: tr => held && guarded false tr
  | held, e :: tr => (!e.isEngineCall || held) && guarded held tr

/-- Whether the mutex is locked after the calls `tr`. -/
def heldAfter : Bool → List Event → Bool
  | held, [] => held
  | _, .lock :: tr => heldAfter true tr
  | _, .unlock :: tr => heldAfter false tr
  | held, _ :: tr => heldAfter held tr

/-- The argument types `sqlite3pp_bind` has a branch for. -/
def Arg.supported : Arg → Bool
  | .optSome a => a.supported
  | .other => false
  | _ => true

/-- The field types `sqlite3pp_column` has a branch for. -/
def FieldType.supported : FieldType → Bool
  | .optional t => t.supported
  | .other => false
  | _ => true

/-! ## Sample inputs -/

/-- An engine whose cross-class conversions all answer zero or empty. -/
def sampleConv : Conv :=
  { int64 := fun _ => 0, real := fun _ => 0, text := fun _ => "", blob := fun _ => [],
    widen := fun x => x, narrow := fun x => x }

/-- A statement that compiles, binds without error and yields `rows`, then
`SQLITE_DONE`. -/
def okStmt (rows : List Row) : StmtScript :=
  { prepareRc := 0, bindRc := fun _ => 0, rows := rows, finalRc := 101,
    errmsg := "not an error", final_ne_row := by decide }

/-- A statement that compiles and whose first step answers `SQLITE_CONSTRAINT` (19). -/
def constraintStmt : StmtScript :=
  { prepareRc := 0, bindRc := fun _ => 0, rows := [], finalRc := 19,
    errmsg := "UNIQUE constraint failed: user.name", final_ne_row := by decide }

/-- A statement that does not compile: `SQLITE_NOTADB` (26). -/
def notADbStmt : StmtScript :=
  { prepareRc := 26, bindRc := fun _ => 0, rows := [], finalRc := 101,
    errmsg := "file is not a database", final_ne_row := by decide }

/-- A statement whose second parameter cannot be bound: `SQLITE_RANGE` (25). -/
def rangeStmt : StmtScript :=
  { prepareRc := 0, bindRc := fun i => if i = 2 then 25 else 0, rows := [], finalRc := 101,
    errmsg := "column index out of range", final_ne_row := by decide }

/-- An object with an engine handle, as a successful `open` leaves it. -/
def openConn : Conn :=
  { mtx_ := false, closed_ := false, auto_commit_ := true, conn_ := some 1 }

/-- An `open` that succeeds throughout. -/
def okOpen : OpenScript :=
  { rc := 0, handle := 1, errmsg := "not an error", journal_mode := okStmt [[Value.text "wal"]],
    synchronous := okStmt [], case_sensitive_like := okStmt [],
    locking_mode := okStmt [[Value.text "normal"]] }

/-- An `open` of a file that is not a database: `sqlite3_open_v2` succeeds and the first
PRAGMA fails to compile. -/
def pragmaFailOpen : OpenScript :=
  { okOpen with handle := 7, journal_mode := notADbStmt }

/-- What `open(":memory:")` leaves behind on a freshly constructed object when the engine
answers `okOpen`. -/
def openedOutcome : Outcome Unit :=
  { result := Res.ok (),
    conn := { mtx_ := false, closed_ := false, auto_commit_ := true, conn_ := some 1 },
    trace := [Event.lock, Event.open_v2 ":memory:" 130 0,
      Event.prepare_v3 "PRAGMA journal_mode=WAL;" 0, Event.step 100, Event.step 101,
      Event.finalize,
      Event.prepare_v3 "PRAGMA synchronous=NORMAL;" 0, Event.step 101, Event.finalize,
      Event.prepare_v3 "PRAGMA case_sensitive_like=ON;" 0, Event.step 101, Event.finalize,
      Event.prepare_v3 "PRAGMA locking_mode=NORMAL;" 0, Event.step 100, Event.step 101,
      Event.finalize, Event.unlock] }

/-- What `close()` leaves behind after that `open`. -/
def closedOutcome : Outcome Unit :=
  { result := Res.ok (),
    conn := { mtx_ := false, closed_ := true, auto_commit_ := true, conn_ := none },
    trace := [Event.lock, Event.close_v2, Event.unlock] }

/-- The three rows of the table `user` of `main.cpp`. -/
def userRows : List Row :=
  [[Value.integer 1, Value.text "Alice", Value.integer 30],
   [Value.integer 2, Value.text "Bob", Value.integer 25],
   [Value.integer 3, Value.text "Charlie", Value.integer 35]]

/-! # Theorems -/

/-! ## Sequencing -/

theorem Act.bind_ok {α β : Type} (x : α) (ev : List Event) (f : α → Act β) :
    Act.bind (Res.ok x, ev) f = ((f x).1, ev ++ (f x).2) := rfl

theorem Act.bind_throw {α β : Type} (w : String) (ev : List Event) (f : α → Act β) :
    Act.bind ((Res.throw w, ev) : Act α) f = (Res.throw w, ev) := rfl

theorem Act.mem_bind {α β : Type} {e : Event} (a : Act α) (f : α → Act β)
    (h : e ∈ (Act.bind a f).2) : e ∈ a.2 ∨ ∃ x, a.1 = Res.ok x ∧ e ∈ (f x).2 := by
  obtain ⟨r, ev⟩ := a
  cases r with
  | ok x =>
      rw [Act.bind_ok] at h
      rcases List.mem_append.mp h with h | h
      · exact Or.inl h
      · exact Or.inr ⟨x, rfl, h⟩
  | throw w =>
      rw [Act.bind_throw] at h
      exact Or.inl h

/-! ## The object state -/

theorem open_body_ok (cv : Conv) (c : Conn) (e : OpenScript) (sourcename : String)
    (timeout : Int) (hok : (open_body cv c e sourcename timeout).1 = Res.ok ()) :
    (open_body cv c e sourcename timeout).2.1
      = { c with conn_ := some e.handle, closed_ := false } := by
  unfold open_body at hok ⊢
  by_cases h1 : c.conn_.isSome = true
  · simp [h1] at hok
  · by_cases h2 : e.rc = SQLITE_OK
    · simp only [h1, h2] at hok ⊢
      simp only [ne_eq, not_true_eq_false, if_false, Bool.false_eq_true] at hok ⊢
      split at hok
      · simp at hok
      · rename_i hp
        simp [hp]
    · simp [h1, h2] at hok

theorem open_ok_state (cv : Conv) (c : Conn) (e : OpenScript) (sourcename : String)
    (timeout : Int) (o : Outcome Unit) (h : «open» cv c e sourcename timeout = some o)
    (hok : o.result = Res.ok ()) :
    o.conn.closed_ = false ∧ o.conn.mtx_ = false ∧ o.conn.conn_ = some e.handle := by
  unfold «open» at h
  split at h
  · exact absurd h (by simp)
  · simp only [Option.some.injEq] at h
    subst h
    simp only at hok ⊢
    rw [open_body_ok cv _ e sourcename timeout hok]
    simp

theorem close_after_open (c : Conn) (h1 : c.closed_ = false) (h2 : c.mtx_ = false) :
    ∃ o, close c = some o ∧ o.result = Res.ok () ∧ o.conn.conn_ = none ∧ o.conn.closed_ = true
      ∧ o.conn.mtx_ = false := by
  unfold close
  simp only [h1, h2]
  cases hc : c.conn_ <;> simp [h2]

theorem execute_no_conn (cv : Conv) (c : Conn) (s : StmtScript) (R : RecordType)
    (stmt : String) (args : List Arg) (h1 : c.conn_ = none) (h2 : c.mtx_ = false) :
    execute cv c s R stmt args
      = some { result := Res.throw "Expect connection !!!", conn := c,
               trace := [Event.lock, Event.unlock] } := by
  obtain ⟨m, cl, ac, cn⟩ := c
  simp only at h1 h2
  subst h1 h2
  simp [execute, unsafe_execute, execute_impl, check_conn, Act.bind]

/-- Claim C4: on an object on which `open` succeeded and `close` was then called, and on
a freshly constructed object, every `execute` fails with "Expect connection !!!"; the only
calls it makes are the lock and the unlock of the mutex (no prepare, bind, step or
finalize), and the data members are unchanged. -/
theorem execute_without_connection_fails (cv : Conv) (c0 : Conn) (e : OpenScript)
    (sourcename : String) (timeout : Int) (o1 o2 : Outcome Unit) (s : StmtScript)
    (R : RecordType) (stmt : String) (args : List Arg)
    (hopen : «open» cv c0 e sourcename timeout = some o1) (hok : o1.result = Res.ok ())
    (hclose : close o1.conn = some o2) :
    execute cv o2.conn s R stmt args
        = some { result := Res.throw "Expect connection !!!", conn := o2.conn,
                 trace := [Event.lock, Event.unlock] }
      ∧ execute cv Conn.new s R stmt args
        = some { result := Res.throw "Expect connection !!!", conn := Conn.new,
                 trace := [Event.lock, Event.unlock] } := by
  obtain ⟨hcl, hm, -⟩ := open_ok_state cv c0 e sourcename timeout o1 hopen hok
  obtain ⟨o, ho, -, hc, -, hm2⟩ := close_after_open o1.conn hcl hm
  rw [ho] at hclose
  simp only [Option.some.injEq] at hclose
  subst hclose
  exact ⟨execute_no_conn cv o.conn s R stmt args hc hm2,
    execute_no_conn cv Conn.new s R stmt args rfl rfl⟩

/-- Witness for C4: `open(":memory:")` on a new object, `close()`, then a query. -/
theorem execute_without_connection_fails_witness :
    («open» sampleConv Conn.new okOpen ":memory:" (-1) = some openedOutcome
      ∧ openedOutcome.result = Res.ok () ∧ close openedOutcome.conn = some closedOutcome)
    ∧ (execute sampleConv closedOutcome.conn (okStmt userRows)
          (RecordType.tuple [FieldType.int IntType.i32]) "select count(*) from user" []
        = some { result := Res.throw "Expect connection !!!", conn := closedOutcome.conn,
                 trace := [Event.lock, Event.unlock] }
      ∧ execute sampleConv Conn.new (okStmt userRows)
          (RecordType.tuple [FieldType.int IntType.i32]) "select count(*) from user" []
        = some { result := Res.throw "Expect connection !!!", conn := Conn.new,
                 trace := [Event.lock, Event.unlock] }) :=
  ⟨⟨by rfl, rfl, rfl⟩,
   execute_without_connection_fails sampleConv Conn.new okOpen ":memory:" (-1) openedOutcome
     closedOutcome (okStmt userRows) (RecordType.tuple [FieldType.int IntType.i32])
     "select count(*) from user" [] (by rfl) rfl rfl⟩

theorem Act.bind_pure_unit (a : Act Unit) : Act.bind a (fun _ => Act.pure ()) = a := by
  obtain ⟨r, ev⟩ := a
  cases r <;> simp [Act.bind, Act.pure]

theorem prepare_msg (diag : String) :
    "sqlite3_prepare_v3" ++ ": " ++ diag = "sqlite3_prepare_v3: " ++ diag := by
  rw [String.append_assoc]; rfl

theorem execute_msg (diag : String) : "execute" ++ ": " ++ diag = "execute: " ++ diag := by
  rw [String.append_assoc]; rfl

theorem throw_except_open (c : Conn) (diag what : String) (h : Nat) (hc : c.conn_ = some h)
    (hw : what.isEmpty = false) :
    throw_except c diag what = (Res.throw (what ++ ": " ++ diag), [Event.errmsg]) := by
  simp [throw_except, hc, hw]

theorem finish_stmt_open (c : Conn) (diag : String) (res : Int) (h : Nat)
    (hc : c.conn_ = some h) :
    finish_stmt c diag res
      = if res = SQLITE_DONE then (Res.ok (), [Event.step res, Event.finalize])
        else (Res.throw ("execute: " ++ diag), [Event.step res, Event.errmsg]) := by
  unfold finish_stmt
  by_cases hr : res = SQLITE_DONE
  · simp [hr, Act.bind, Act.emit, Act.pure]
  · rw [if_pos hr, throw_except_open c diag "execute" h hc (by decide), execute_msg]
    simp [hr, Act.bind, Act.emit]

theorem execute_impl_prepare_fail (cv : Conv) (c : Conn) (s : StmtScript) (R : RecordType)
    (stmt : String) (args : List Arg) (h : Nat) (hc : c.conn_ = some h)
    (hp : s.prepareRc ≠ SQLITE_OK) :
    execute_impl cv c s R stmt args
      = (Res.throw ("sqlite3_prepare_v3: " ++ s.errmsg),
         [Event.prepare_v3 stmt s.prepareRc, Event.errmsg]) := by
  unfold execute_impl
  rw [if_pos hp, throw_except_open c s.errmsg "sqlite3_prepare_v3" h hc (by decide), prepare_msg]
  simp [check_conn, hc, Act.bind, Act.emit, Act.pure]

theorem execute_impl_prepared (cv : Conv) (c : Conn) (s : StmtScript) (R : RecordType)
    (stmt : String) (args : List Arg) (h : Nat) (hc : c.conn_ = some h)
    (hp : s.prepareRc = SQLITE_OK) :
    execute_impl cv c s R stmt args
      = Act.bind (Res.ok (), [Event.prepare_v3 stmt SQLITE_OK]) fun _ =>
        Act.bind (bind_args (some s) cv 1 args) fun _ =>
        step_and_decode cv c s.errmsg (some s) R := by
  unfold execute_impl
  simp [check_conn, hc, hp, Act.bind, Act.emit, Act.pure]

theorem execute_eq (cv : Conv) (c : Conn) (s : StmtScript) (R : RecordType)
    (stmt : String) (args : List Arg) (hm : c.mtx_ = false) :
    execute cv c s R stmt args
      = some { result := (execute_impl cv { c with mtx_ := true } s R stmt args).1, conn := c,
               trace := Event.lock ::
                 (execute_impl cv { c with mtx_ := true } s R stmt args).2 ++ [Event.unlock] } := by
  obtain ⟨m, cl, ac, cn⟩ := c
  simp only at hm
  subst hm
  simp [execute, unsafe_execute]

theorem throw_except_congr (c c' : Conn) (diag what : String) (h : c.conn_ = c'.conn_) :
    throw_except c diag what = throw_except c' diag what := by
  simp [throw_except, h]

theorem execute_impl_congr (cv : Conv) (c c' : Conn) (s : StmtScript) (R : RecordType)
    (stmt : String) (args : List Arg) (h : c.conn_ = c'.conn_) :
    execute_impl cv c s R stmt args = execute_impl cv c' s R stmt args := by
  cases R <;>
    simp [execute_impl, step_and_decode, finish_stmt, check_conn, h,
      throw_except_congr c c' _ _ h]

theorem execute_eq_impl (cv : Conv) (c : Conn) (s : StmtScript) (R : RecordType)
    (stmt : String) (args : List Arg) (hm : c.mtx_ = false) :
    execute cv c s R stmt args
      = some { result := (execute_impl cv c s R stmt args).1, conn := c,
               trace := Event.lock :: (execute_impl cv c s R stmt args).2 ++ [Event.unlock] } := by
  rw [execute_eq cv c s R stmt args hm,
    execute_impl_congr cv { c with mtx_ := true } c s R stmt args rfl]

/-! ## The type codec -/

theorem sqlite3pp_bind_cases (vm : Option StmtScript) (cv : Conv) (p : Nat) (a : Arg) :
    (a.supported = false ∧ sqlite3pp_bind vm cv p a = (Res.throw "Unknown sqlite3 type !!!", []))
    ∨ (a.supported = true ∧ ∃ call, sqlite3pp_bind vm cv p a = bind_call vm p call) := by
  induction a with
  | int t v =>
      right
      refine ⟨rfl, ?_⟩
      unfold sqlite3pp_bind
      split
      · exact ⟨_, rfl⟩
      · exact ⟨_, rfl⟩
  | real single x => exact Or.inr ⟨rfl, _, rfl⟩
  | cstr s => exact Or.inr ⟨rfl, _, rfl⟩
  | text s => exact Or.inr ⟨rfl, _, rfl⟩
  | bytes b => exact Or.inr ⟨rfl, _, rfl⟩
  | optNone => exact Or.inr ⟨rfl, _, rfl⟩
  | optSome a ih =>
      rcases ih with ⟨h1, h2⟩ | ⟨h1, call, h2⟩
      · left
        refine ⟨h1, ?_⟩
        simp [sqlite3pp_bind, h2, Act.bind]
      · right
        refine ⟨h1, call, ?_⟩
        simp only [sqlite3pp_bind]
        rw [Act.bind_pure_unit, h2]
  | other => exact Or.inl ⟨rfl, rfl⟩

theorem bind_call_ok (vm : Option StmtScript) (p : Nat) (call : BindCall)
    (h : sqlite3_bind vm p = SQLITE_OK) :
    bind_call vm p call = (Res.ok (), [Event.bind p call SQLITE_OK]) := by
  simp [bind_call, h]

theorem bind_call_fail (vm : Option StmtScript) (p : Nat) (call : BindCall)
    (h : sqlite3_bind vm p ≠ SQLITE_OK) :
    bind_call vm p call
      = (Res.throw ("sqlite3_bind err:" ++ toString (sqlite3_bind vm p)),
         [Event.bind p call (sqlite3_bind vm p)]) := by
  simp [bind_call, h]

/-- What one `sqlite3pp_bind` leaves behind: nothing and the unsupported-type error, or
one bind call at its parameter index, failing exactly when the engine's code is not
`SQLITE_OK`. -/
theorem sqlite3pp_bind_shape (vm : Option StmtScript) (cv : Conv) (p : Nat) (a : Arg) :
    (a.supported = false ∧ sqlite3pp_bind vm cv p a = (Res.throw "Unknown sqlite3 type !!!", []))
    ∨ (a.supported = true ∧ ∃ call,
        (sqlite3pp_bind vm cv p a).2 = [Event.bind p call (sqlite3_bind vm p)]
        ∧ (sqlite3_bind vm p = SQLITE_OK → (sqlite3pp_bind vm cv p a).1 = Res.ok ())
        ∧ (sqlite3_bind vm p ≠ SQLITE_OK → (sqlite3pp_bind vm cv p a).1
            = Res.throw ("sqlite3_bind err:" ++ toString (sqlite3_bind vm p)))) := by
  rcases sqlite3pp_bind_cases vm cv p a with h | ⟨h1, call, h2⟩
  · exact Or.inl h
  · right
    refine ⟨h1, call, ?_, ?_, ?_⟩
    · rw [h2]; rfl
    · intro h; rw [h2, bind_call_ok vm p call h]
    · intro h; rw [h2, bind_call_fail vm p call h]

theorem bind_args_cons (vm : Option StmtScript) (cv : Conv) (idx : Nat) (a : Arg)
    (rest : List Arg) :
    bind_args vm cv idx (a :: rest)
      = Act.bind (sqlite3pp_bind vm cv idx a) fun _ => bind_args vm cv (idx + 1) rest := rfl

/-- Every call of the bind phase is a bind call. -/
theorem bind_args_isBind (vm : Option StmtScript) (cv : Conv) (args : List Arg) :
    ∀ (idx : Nat) (e : Event), e ∈ (bind_args vm cv idx args).2 → e.isBind = true := by
  induction args with
  | nil => intro idx e h; simp [bind_args, Act.pure] at h
  | cons a rest ih =>
      intro idx e h
      rw [bind_args_cons] at h
      rcases Act.mem_bind _ _ h with h | ⟨_, -, h⟩
      · rcases sqlite3pp_bind_shape vm cv idx a with ⟨-, h2⟩ | ⟨-, call, h2, -, -⟩
        · rw [h2] at h; simp at h
        · rw [h2] at h
          simp only [List.mem_singleton] at h
          subst h; rfl
      · exact ih _ e h

/-- The `i`-th call of the bind phase (from 0) is the call that `sqlite3pp_bind` makes for
the `i`-th argument at parameter index `idx + i`. -/
theorem bind_args_nth (vm : Option StmtScript) (cv : Conv) (args : List Arg) :
    ∀ (idx i : Nat) (e : Event), (bind_args vm cv idx args).2[i]? = some e →
      ∃ a call, args[i]? = some a ∧ e = Event.bind (idx + i) call (sqlite3_bind vm (idx + i))
        ∧ (sqlite3pp_bind vm cv (idx + i) a).2 = [e] := by
  induction args with
  | nil => intro idx i e h; simp [bind_args, Act.pure] at h
  | cons a rest ih =>
      intro idx i e h
      rw [bind_args_cons] at h
      rcases sqlite3pp_bind_shape vm cv idx a with ⟨-, h2⟩ | ⟨-, call, h2, h3, h4⟩
      · rw [h2, Act.bind_throw] at h; simp at h
      · by_cases hrc : sqlite3_bind vm idx = SQLITE_OK
        · have hb : sqlite3pp_bind vm cv idx a = (Res.ok (), [Event.bind idx call (sqlite3_bind vm idx)]) :=
            Prod.ext (h3 hrc) h2
          rw [hb, Act.bind_ok] at h
          cases i with
          | zero =>
              simp only [List.singleton_append, List.getElem?_cons_zero, Option.some.injEq] at h
              subst h
              exact ⟨a, call, by simp, rfl, h2⟩
          | succ j =>
              simp only [List.singleton_append, List.getElem?_cons_succ] at h
              obtain ⟨a', call', ha, he, hs⟩ := ih (idx + 1) j e h
              have hidx : idx + 1 + j = idx + (j + 1) := by omega
              rw [hidx] at he hs
              exact ⟨a', call', by simpa using ha, he, hs⟩
        · have hb : sqlite3pp_bind vm cv idx a
              = (Res.throw ("sqlite3_bind err:" ++ toString (sqlite3_bind vm idx)),
                 [Event.bind idx call (sqlite3_bind vm idx)]) :=
            Prod.ext (h4 hrc) h2
          rw [hb, Act.bind_throw] at h
          cases i with
          | zero =>
              simp only [List.getElem?_cons_zero, Option.some.injEq] at h
              subst h
              exact ⟨a, call, by simp, rfl, h2⟩
          | succ j => simp at h

/-- A bind call that the engine refuses ends the bind phase with the bind error. -/
theorem bind_args_fail (vm : Option StmtScript) (cv : Conv) (args : List Arg) :
    ∀ (idx p : Nat) (call : BindCall) (rc : Int),
      Event.bind p call rc ∈ (bind_args vm cv idx args).2 → rc ≠ SQLITE_OK →
      (bind_args vm cv idx args).1 = Res.throw ("sqlite3_bind err:" ++ toString rc) := by
  induction args with
  | nil => intro idx p call rc h; simp [bind_args, Act.pure] at h
  | cons a rest ih =>
      intro idx p call rc h hrc
      rw [bind_args_cons] at h ⊢
      rcases sqlite3pp_bind_shape vm cv idx a with ⟨-, h2⟩ | ⟨-, call', h2, h3, h4⟩
      · rw [h2, Act.bind_throw] at h; simp at h
      · by_cases hok : sqlite3_bind vm idx = SQLITE_OK
        · have hb : sqlite3pp_bind vm cv idx a
              = (Res.ok (), [Event.bind idx call' (sqlite3_bind vm idx)]) :=
            Prod.ext (h3 hok) h2
          rw [hb, Act.bind_ok] at h ⊢
          simp only [List.singleton_append, List.mem_cons, Event.bind.injEq] at h
          rcases h with ⟨-, -, h⟩ | h
          · exact absurd (h.trans hok) hrc
          · exact ih _ _ _ _ h hrc
        · have hb : sqlite3pp_bind vm cv idx a
              = (Res.throw ("sqlite3_bind err:" ++ toString (sqlite3_bind vm idx)),
                 [Event.bind idx call' (sqlite3_bind vm idx)]) :=
            Prod.ext (h4 hok) h2
          rw [hb, Act.bind_throw] at h ⊢
          simp only [List.mem_singleton, Event.bind.injEq] at h
          obtain ⟨-, -, h⟩ := h
          rw [h]

/-- With supported argument types and no refusal by the engine the bind phase makes one
call per argument and returns. -/
theorem bind_args_ok (vm : Option StmtScript) (cv : Conv) (args : List Arg)
    (hs : ∀ a ∈ args, a.supported = true) :
    ∀ idx : Nat, (∀ i, idx ≤ i → i < idx + args.length → sqlite3_bind vm i = SQLITE_OK) →
      (bind_args vm cv idx args).1 = Res.ok ()
      ∧ (bind_args vm cv idx args).2.length = args.length := by
  induction args with
  | nil => intro idx _; simp [bind_args, Act.pure]
  | cons a rest ih =>
      intro idx hrc
      rw [bind_args_cons]
      have hsa : a.supported = true := hs a (List.mem_cons_self _ _)
      rcases sqlite3pp_bind_shape vm cv idx a with ⟨h1, -⟩ | ⟨-, call, h2, h3, -⟩
      · rw [hsa] at h1; exact absurd h1 (by simp)
      · have hok : sqlite3_bind vm idx = SQLITE_OK := hrc idx (le_refl _) (by simp)
        have hb : sqlite3pp_bind vm cv idx a
            = (Res.ok (), [Event.bind idx call (sqlite3_bind vm idx)]) :=
          Prod.ext (h3 hok) h2
        rw [hb, Act.bind_ok]
        obtain ⟨ih1, ih2⟩ := ih (fun b hb => hs b (List.mem_cons_of_mem _ hb)) (idx + 1)
          (fun i h1 h2 => hrc i (by omega) (by simp only [List.length_cons]; omega))
        exact ⟨ih1, by simp [ih2]⟩

theorem sqlite3pp_column_ok (cv : Conv) (row : Row) (col : Nat) (t : FieldType)
    (h : t.supported = true) : ∃ f, (sqlite3pp_column cv row col t).1 = Res.ok f := by
  induction t with
  | int t =>
      unfold sqlite3pp_column
      split
      · exact ⟨_, rfl⟩
      · exact ⟨_, rfl⟩
  | real single => exact ⟨_, rfl⟩
  | text => exact ⟨_, rfl⟩
  | bytes => exact ⟨_, rfl⟩
  | optional t ih =>
      obtain ⟨f, hf⟩ := ih h
      refine ⟨Field.present f, ?_⟩
      simp only [sqlite3pp_column]
      rcases hx : sqlite3pp_column cv row col t with ⟨r, ev⟩
      rw [hx] at hf
      simp only at hf
      subst hf
      rfl
  | other => simp [FieldType.supported] at h

/-- The outcome of `sqlite3pp_column` is an unsupported-type error or a field. -/
theorem sqlite3pp_column_res (cv : Conv) (row : Row) (col : Nat) (t : FieldType) :
    (sqlite3pp_column cv row col t).1 = Res.throw "Unknown sqlite3 type !!!"
    ∨ ∃ f, (sqlite3pp_column cv row col t).1 = Res.ok f := by
  induction t with
  | int t =>
      right
      unfold sqlite3pp_column
      split
      · exact ⟨_, rfl⟩
      · exact ⟨_, rfl⟩
  | real single => exact Or.inr ⟨_, rfl⟩
  | text => exact Or.inr ⟨_, rfl⟩
  | bytes => exact Or.inr ⟨_, rfl⟩
  | optional t ih =>
      simp only [sqlite3pp_column]
      rcases hx : sqlite3pp_column cv row col t with ⟨r, ev⟩
      rw [hx] at ih
      cases r with
      | ok v => exact Or.inr ⟨Field.present v, rfl⟩
      | throw w =>
          left
          rcases ih with ih | ⟨f, ih⟩
          · simp only at ih; rw [ih]; rfl
          · simp at ih
  | other => exact Or.inl rfl

/-- Every call of `sqlite3pp_column` is a column accessor at the index it was given. -/
theorem sqlite3pp_column_events (cv : Conv) (row : Row) (col : Nat) (t : FieldType) :
    ∀ e ∈ (sqlite3pp_column cv row col t).2, ∃ acc, e = Event.column acc col := by
  induction t with
  | int t =>
      intro e h
      unfold sqlite3pp_column at h
      split at h <;> simp at h <;> exact ⟨_, h⟩
  | real single => intro e h; simp [sqlite3pp_column] at h; exact ⟨_, h⟩
  | text =>
      intro e h
      simp [sqlite3pp_column] at h
      rcases h with h | h <;> exact ⟨_, h⟩
  | bytes =>
      intro e h
      simp [sqlite3pp_column] at h
      rcases h with h | h <;> exact ⟨_, h⟩
  | optional t ih =>
      intro e h
      simp only [sqlite3pp_column] at h
      rcases Act.mem_bind _ _ h with h | ⟨_, -, h⟩
      · exact ih e h
      · simp [Act.pure] at h
  | other => intro e h; simp [sqlite3pp_column] at h

/-- The field `sqlite3pp_column` decodes depends on the row only through the value the
engine answers at the column index. -/
theorem sqlite3pp_column_value (cv : Conv) (row : Row) (col : Nat) (t : FieldType) :
    (sqlite3pp_column cv row col t).1 = (sqlite3pp_column cv [columnValue row col] 0 t).1 := by
  induction t with
  | int t =>
      unfold sqlite3pp_column
      split <;> simp [columnValue]
  | real single => simp [sqlite3pp_column, columnValue]
  | text => simp [sqlite3pp_column, columnValue]
  | bytes => simp [sqlite3pp_column, columnValue]
  | optional t ih =>
      simp only [sqlite3pp_column]
      rcases hx : sqlite3pp_column cv row col t with ⟨r, ev⟩
      rcases hy : sqlite3pp_column cv [columnValue row col] 0 t with ⟨r', ev'⟩
      rw [hx, hy] at ih
      simp only at ih
      subst ih
      cases r <;> rfl
  | other => rfl

theorem decode_row_cons (cv : Conv) (row : Row) (idx : Nat) (t : FieldType)
    (rest : List FieldType) :
    decode_row cv row idx (t :: rest)
      = Act.bind (sqlite3pp_column cv row idx t) fun f =>
        Act.bind (decode_row cv row (idx + 1) rest) fun fs => Act.pure (f :: fs) := rfl

theorem decode_row_events (cv : Conv) (row : Row) (fields : List FieldType) :
    ∀ (idx : Nat) (e : Event), e ∈ (decode_row cv row idx fields).2 →
      ∃ acc col, e = Event.column acc col ∧ idx ≤ col ∧ col < idx + fields.length := by
  induction fields with
  | nil => intro idx e h; simp [decode_row, Act.pure] at h
  | cons t rest ih =>
      intro idx e h
      rw [decode_row_cons] at h
      rcases Act.mem_bind _ _ h with h | ⟨_, -, h⟩
      · obtain ⟨acc, he⟩ := sqlite3pp_column_events cv row idx t e h
        exact ⟨acc, idx, he, le_refl _, by simp⟩
      · rcases Act.mem_bind _ _ h with h | ⟨_, -, h⟩
        · obtain ⟨acc, col, he, h1, h2⟩ := ih _ e h
          exact ⟨acc, col, he, by omega, by simp only [List.length_cons]; omega⟩
        · simp [Act.pure] at h

theorem decode_row_res (cv : Conv) (row : Row) (fields : List FieldType) :
    ∀ idx : Nat, (decode_row cv row idx fields).1 = Res.throw "Unknown sqlite3 type !!!"
      ∨ ∃ r, (decode_row cv row idx fields).1 = Res.ok r := by
  induction fields with
  | nil => intro idx; exact Or.inr ⟨[], rfl⟩
  | cons t rest ih =>
      intro idx
      rw [decode_row_cons]
      rcases hx : sqlite3pp_column cv row idx t with ⟨r, ev⟩
      have h1 := sqlite3pp_column_res cv row idx t
      rw [hx] at h1
      cases r with
      | throw w =>
          left
          rcases h1 with h1 | ⟨f, h1⟩
          · simp only at h1; rw [h1]; rfl
          · simp at h1
      | ok f =>
          rw [Act.bind_ok]
          rcases hy : decode_row cv row (idx + 1) rest with ⟨r', ev'⟩
          have h2 := ih (idx + 1)
          rw [hy] at h2
          cases r' with
          | throw w =>
              left
              rcases h2 with h2 | ⟨f, h2⟩
              · simp only at h2; rw [h2]; rfl
              · simp at h2
          | ok fs => exact Or.inr ⟨f :: fs, rfl⟩

/-- With supported field types one row decodes to a tuple whose field `j` is what
`sqlite3pp_column` decodes at column `idx + j`. -/
theorem decode_row_ok (cv : Conv) (row : Row) (fields : List FieldType)
    (hs : ∀ t ∈ fields, t.supported = true) :
    ∀ idx : Nat, ∃ r, (decode_row cv row idx fields).1 = Res.ok r
      ∧ r.length = fields.length
      ∧ ∀ j t, fields[j]? = some t →
          ∃ f, r[j]? = some f ∧ (sqlite3pp_column cv row (idx + j) t).1 = Res.ok f := by
  induction fields with
  | nil => intro idx; exact ⟨[], rfl, rfl, by simp⟩
  | cons t rest ih =>
      intro idx
      obtain ⟨f, hf⟩ := sqlite3pp_column_ok cv row idx t (hs t (List.mem_cons_self _ _))
      obtain ⟨fs, hfs, hlen, hall⟩ := ih (fun u hu => hs u (List.mem_cons_of_mem _ hu)) (idx + 1)
      refine ⟨f :: fs, ?_, by simp [hlen], ?_⟩
      · rw [decode_row_cons]
        rcases hx : sqlite3pp_column cv row idx t with ⟨r, ev⟩
        rw [hx] at hf
        simp only at hf
        subst hf
        rw [Act.bind_ok]
        rcases hy : decode_row cv row (idx + 1) rest with ⟨r', ev'⟩
        rw [hy] at hfs
        simp only at hfs
        subst hfs
        rfl
      · intro j u hj
        cases j with
        | zero =>
            simp only [List.getElem?_cons_zero, Option.some.injEq] at hj
            subst hj
            exact ⟨f, by simp, hf⟩
        | succ k =>
            simp only [List.getElem?_cons_succ] at hj
            obtain ⟨g, hg1, hg2⟩ := hall k u hj
            have hidx : idx + 1 + k = idx + (k + 1) := by omega
            rw [hidx] at hg2
            exact ⟨g, by simpa using hg1, hg2⟩

/-! ## The step loops -/

theorem fetch_rows_cons (cv : Conv) (fields : List FieldType) (row : Row) (rest : List Row)
    (ret : List Record) :
    fetch_rows cv fields (row :: rest) ret
      = Act.bind (Res.ok (), [Event.step SQLITE_ROW]) fun _ =>
        Act.bind (decode_row cv row 0 fields) fun e =>
        fetch_rows cv fields rest (ret ++ [e]) := rfl

theorem fetch_rows_events (cv : Conv) (fields : List FieldType) (rows : List Row) :
    ∀ (ret : List Record) (e : Event), e ∈ (fetch_rows cv fields rows ret).2 →
      e = Event.step SQLITE_ROW ∨ ∃ acc col, e = Event.column acc col := by
  induction rows with
  | nil => intro ret e h; simp [fetch_rows, Act.pure] at h
  | cons row rest ih =>
      intro ret e h
      rw [fetch_rows_cons] at h
      rcases Act.mem_bind _ _ h with h | ⟨_, -, h⟩
      · simp only [List.mem_singleton] at h
        exact Or.inl h
      · rcases Act.mem_bind _ _ h with h | ⟨_, -, h⟩
        · obtain ⟨acc, col, he, -, -⟩ := decode_row_events cv row fields 0 e h
          exact Or.inr ⟨acc, col, he⟩
        · exact ih _ e h

theorem fetch_rows_res (cv : Conv) (fields : List FieldType) (rows : List Row) :
    ∀ ret : List Record, (fetch_rows cv fields rows ret).1 = Res.throw "Unknown sqlite3 type !!!"
      ∨ ∃ r, (fetch_rows cv fields rows ret).1 = Res.ok r := by
  induction rows with
  | nil => intro ret; exact Or.inr ⟨ret, rfl⟩
  | cons row rest ih =>
      intro ret
      rw [fetch_rows_cons, Act.bind_ok]
      rcases hx : decode_row cv row 0 fields with ⟨r, ev⟩
      have h1 := decode_row_res cv row fields 0
      rw [hx] at h1
      cases r with
      | throw w =>
          left
          rcases h1 with h1 | ⟨f, h1⟩
          · simp only at h1; rw [h1]; rfl
          · simp at h1
      | ok rec =>
          rw [Act.bind_ok]
          exact ih (ret ++ [rec])

/-- With supported field types the loop appends one tuple per row, in the order of the
rows, each one the decoding of its row from column 0 on. -/
theorem fetch_rows_ok (cv : Conv) (fields : List FieldType)
    (hs : ∀ t ∈ fields, t.supported = true) (rows : List Row) :
    ∀ ret : List Record, ∃ recs : List Record,
      (fetch_rows cv fields rows ret).1 = Res.ok (ret ++ recs)
      ∧ recs.length = rows.length
      ∧ ∀ (i : Nat) (row : Row), rows[i]? = some row →
          ∃ r : Record, recs[i]? = some r ∧ (decode_row cv row 0 fields).1 = Res.ok r := by
  induction rows with
  | nil => intro ret; exact ⟨[], by simp [fetch_rows, Act.pure], rfl, by simp⟩
  | cons row rest ih =>
      intro ret
      obtain ⟨r, hr, -, -⟩ := decode_row_ok cv row fields hs 0
      obtain ⟨recs, h1, h2, h3⟩ := ih (ret ++ [r])
      refine ⟨r :: recs, ?_, by simp [h2], ?_⟩
      · rw [fetch_rows_cons, Act.bind_ok]
        rcases hx : decode_row cv row 0 fields with ⟨r', ev⟩
        rw [hx] at hr
        simp only at hr
        subst hr
        rw [Act.bind_ok]
        simp only [h1, List.append_assoc, List.singleton_append]
      · intro i row' hi
        cases i with
        | zero =>
            simp only [List.getElem?_cons_zero, Option.some.injEq] at hi
            subst hi
            exact ⟨r, by simp, hr⟩
        | succ k =>
            simp only [List.getElem?_cons_succ] at hi
            obtain ⟨r', hr1, hr2⟩ := h3 k row' hi
            exact ⟨r', by simpa using hr1, hr2⟩

theorem skip_rows_ok (rows : List Row) :
    (skip_rows rows).1 = Res.ok () ∧ ∀ e ∈ (skip_rows rows).2, e = Event.step SQLITE_ROW := by
  induction rows with
  | nil => simp [skip_rows, Act.pure]
  | cons row rest ih =>
      obtain ⟨h1, h2⟩ := ih
      have hc : skip_rows (row :: rest)
          = Act.bind (Res.ok (), [Event.step SQLITE_ROW]) fun _ => skip_rows rest := rfl
      rw [hc, Act.bind_ok]
      refine ⟨h1, ?_⟩
      intro e he
      simp only [List.singleton_append, List.mem_cons] at he
      rcases he with he | he
      · exact he
      · exact h2 e he

/-- The calls of lines 208-237 on an object with an engine handle: row steps and column
reads, then nothing more (an exception left the loop, or `R` is no tuple and not `void`),
or the last step with `sqlite3_finalize` (the step answered `SQLITE_DONE`), or the last
step with `sqlite3_errmsg` (any other answer). -/
theorem step_and_decode_shape (cv : Conv) (c : Conn) (diag : String) (vm : Option StmtScript)
    (R : RecordType) (h : Nat) (hc : c.conn_ = some h) :
    ∃ pre : List Event,
      (∀ e ∈ pre, e = Event.step SQLITE_ROW ∨ ∃ acc col, e = Event.column acc col)
      ∧ ((∃ w, step_and_decode cv c diag vm R = (Res.throw w, pre)
            ∧ (w = "Unknown sqlite3 type !!!" ∨ w = "R type error !!!"))
         ∨ (stmtFinalRc vm = SQLITE_DONE ∧ ∃ ret, step_and_decode cv c diag vm R
              = (Res.ok ret, pre ++ [Event.step SQLITE_DONE, Event.finalize]))
         ∨ (stmtFinalRc vm ≠ SQLITE_DONE ∧ step_and_decode cv c diag vm R
              = (Res.throw ("execute: " ++ diag),
                 pre ++ [Event.step (stmtFinalRc vm), Event.errmsg]))) := by
  cases R with
  | other => exact ⟨[], by simp, Or.inl ⟨_, rfl, Or.inr rfl⟩⟩
  | void =>
      obtain ⟨h1, h2⟩ := skip_rows_ok (stmtRows vm)
      rcases hx : skip_rows (stmtRows vm) with ⟨r, ev⟩
      rw [hx] at h1 h2
      simp only at h1 h2
      subst h1
      refine ⟨ev, fun e he => Or.inl (h2 e he), ?_⟩
      simp only [step_and_decode, hx, Act.bind_ok, finish_stmt_open c diag _ h hc]
      by_cases hd : stmtFinalRc vm = SQLITE_DONE
      · exact Or.inr (Or.inl ⟨hd, Ret.unit, by simp [hd, Act.bind, Act.pure]⟩)
      · exact Or.inr (Or.inr ⟨hd, by simp [hd, Act.bind]⟩)
  | tuple fields =>
      have h1 := fetch_rows_res cv fields (stmtRows vm) []
      have h2 := fetch_rows_events cv fields (stmtRows vm) []
      rcases hx : fetch_rows cv fields (stmtRows vm) [] with ⟨r, ev⟩
      rw [hx] at h1 h2
      simp only at h1 h2
      refine ⟨ev, h2, ?_⟩
      cases r with
      | throw w =>
          rcases h1 with h1 | ⟨f, h1⟩
          · simp only [Res.throw.injEq] at h1
            subst h1
            exact Or.inl ⟨_, by simp [step_and_decode, hx, Act.bind_throw], Or.inl rfl⟩
          · simp at h1
      | ok ret =>
          simp only [step_and_decode, hx, Act.bind_ok, finish_stmt_open c diag _ h hc]
          by_cases hd : stmtFinalRc vm = SQLITE_DONE
          · exact Or.inr (Or.inl ⟨hd, Ret.rows ret, by simp [hd, Act.bind, Act.pure]⟩)
          · exact Or.inr (Or.inr ⟨hd, by simp [hd, Act.bind]⟩)

/-! ## One `execute` call on an object with an engine handle -/

/-- The outcome and the calls of `execute` after a successful compile: the lock, the
compile, the bind phase, lines 208-237 if the bind phase returned, the unlock. -/
theorem execute_prepared (cv : Conv) (c : Conn) (s : StmtScript) (R : RecordType)
    (stmt : String) (args : List Arg) (h : Nat) (hc : c.conn_ = some h)
    (hm : c.mtx_ = false) (hp : s.prepareRc = SQLITE_OK) :
    (∃ w, (bind_args (some s) cv 1 args).1 = Res.throw w
        ∧ execute cv c s R stmt args
          = some { result := Res.throw w, conn := c,
                   trace := Event.lock :: Event.prepare_v3 stmt SQLITE_OK ::
                     (bind_args (some s) cv 1 args).2 ++ [Event.unlock] })
    ∨ ((bind_args (some s) cv 1 args).1 = Res.ok ()
        ∧ execute cv c s R stmt args
          = some { result := (step_and_decode cv c s.errmsg (some s) R).1, conn := c,
                   trace := Event.lock :: Event.prepare_v3 stmt SQLITE_OK ::
                     ((bind_args (some s) cv 1 args).2
                       ++ (step_and_decode cv c s.errmsg (some s) R).2) ++ [Event.unlock] }) := by
  rw [execute_eq_impl cv c s R stmt args hm, execute_impl_prepared cv c s R stmt args h hc hp]
  rcases hx : bind_args (some s) cv 1 args with ⟨r, ev⟩
  cases r with
  | throw w => exact Or.inl ⟨w, rfl, by simp [Act.bind]⟩
  | ok u => exact Or.inr ⟨rfl, by simp [Act.bind]⟩

theorem countP_eq_zero_of {p : Event → Bool} {l : List Event} (h : ∀ e ∈ l, p e = false) :
    l.countP p = 0 := by
  rw [List.countP_eq_zero]
  intro e he
  simp [h e he]

theorem loop_event_facts {e : Event}
    (h : e = Event.step SQLITE_ROW ∨ ∃ acc col, e = Event.column acc col) :
    e.isBind = false ∧ e.isFinalize = false ∧ e.isPrepared = false
      ∧ e ≠ Event.lock ∧ e ≠ Event.unlock ∧ e.isEngineCall = true
      ∧ ∀ rc, e = Event.step rc → rc = SQLITE_ROW := by
  rcases h with h | ⟨acc, col, h⟩ <;> subst h <;> simp [Event.isBind, Event.isFinalize,
    Event.isPrepared, Event.isEngineCall]

theorem bind_event_facts {e : Event} (h : e.isBind = true) :
    e.isFinalize = false ∧ e.isPrepared = false ∧ e.isStep = false
      ∧ e ≠ Event.lock ∧ e ≠ Event.unlock ∧ e.isEngineCall = true := by
  cases e <;> simp [Event.isBind, Event.isFinalize, Event.isPrepared, Event.isStep,
    Event.isEngineCall] at h ⊢

theorem bind_args_counts (vm : Option StmtScript) (cv : Conv) (idx : Nat) (args : List Arg) :
    (bind_args vm cv idx args).2.countP Event.isFinalize = 0
      ∧ (bind_args vm cv idx args).2.countP Event.isPrepared = 0
      ∧ (bind_args vm cv idx args).2.countP Event.isStep = 0 :=
  ⟨countP_eq_zero_of fun e he => (bind_event_facts (bind_args_isBind vm cv args idx e he)).1,
   countP_eq_zero_of fun e he => (bind_event_facts (bind_args_isBind vm cv args idx e he)).2.1,
   countP_eq_zero_of fun e he => (bind_event_facts (bind_args_isBind vm cv args idx e he)).2.2.1⟩

/-- Claim C1, evaluated on the code: after a successful compile, `execute` calls
`sqlite3_finalize` exactly once when it returns normally and not at all when it fails, so
every failing exit (bind failure, unsupported type, step outcome other than done) leaves
one more live prepared statement than before the call. -/
theorem execute_finalizes_only_on_return (cv : Conv) (c : Conn) (s : StmtScript)
    (R : RecordType) (stmt : String) (args : List Arg) (h : Nat) (before : Int)
    (hc : c.conn_ = some h) (hm : c.mtx_ = false) (hp : s.prepareRc = SQLITE_OK) :
    ∃ o, execute cv c s R stmt args = some o
      ∧ ((∃ v, o.result = Res.ok v) →
          o.trace.countP Event.isFinalize = 1 ∧ liveStatements before o.trace = before)
      ∧ (∀ w, o.result = Res.throw w →
          o.trace.countP Event.isFinalize = 0 ∧ liveStatements before o.trace = before + 1) := by
  obtain ⟨b1, b2, -⟩ := bind_args_counts (some s) cv 1 args
  rcases execute_prepared cv c s R stmt args h hc hm hp with ⟨w, -, he⟩ | ⟨-, he⟩
  · refine ⟨_, he, ?_, ?_⟩
    · rintro ⟨v, hv⟩
      simp at hv
    · intro w' _
      simp [liveStatements, List.countP_cons, List.countP_append, b1, b2, Event.isFinalize,
        Event.isPrepared, SQLITE_OK]
  · refine ⟨_, he, ?_, ?_⟩
    · rintro ⟨v, hv⟩
      simp only at hv
      obtain ⟨pre, hpre, hshape⟩ := step_and_decode_shape cv c s.errmsg (some s) R h hc
      have p1 : pre.countP Event.isFinalize = 0 :=
        countP_eq_zero_of fun e he => (loop_event_facts (hpre e he)).2.1
      have p2 : pre.countP Event.isPrepared = 0 :=
        countP_eq_zero_of fun e he => (loop_event_facts (hpre e he)).2.2.1
      rcases hshape with ⟨w, hs, -⟩ | ⟨-, ret, hs⟩ | ⟨-, hs⟩
      · rw [hs] at hv; simp at hv
      · simp [hs, liveStatements, List.countP_cons, List.countP_append, b1, b2, p1, p2,
          Event.isFinalize, Event.isPrepared, SQLITE_OK]
      · rw [hs] at hv; simp at hv
    · intro w hw
      simp only at hw
      obtain ⟨pre, hpre, hshape⟩ := step_and_decode_shape cv c s.errmsg (some s) R h hc
      have p1 : pre.countP Event.isFinalize = 0 :=
        countP_eq_zero_of fun e he => (loop_event_facts (hpre e he)).2.1
      have p2 : pre.countP Event.isPrepared = 0 :=
        countP_eq_zero_of fun e he => (loop_event_facts (hpre e he)).2.2.1
      rcases hshape with ⟨w, hs, -⟩ | ⟨-, ret, hs⟩ | ⟨-, hs⟩
      · simp [hs, liveStatements, List.countP_cons, List.countP_append, b1, b2, p1, p2,
          Event.isFinalize, Event.isPrepared, SQLITE_OK]
      · rw [hs] at hw; simp at hw
      · simp [hs, liveStatements, List.countP_cons, List.countP_append, b1, b2, p1, p2,
          Event.isFinalize, Event.isPrepared, SQLITE_OK]

/-- Witness for C1 at the failing input: inserting a duplicate name on an open connection
compiles, the step answers `SQLITE_CONSTRAINT`, and the call fails leaving one live
prepared statement. -/
theorem execute_finalizes_only_on_return_witness :
    (openConn.conn_ = some 1 ∧ openConn.mtx_ = false ∧ constraintStmt.prepareRc = SQLITE_OK)
    ∧ execute sampleConv openConn constraintStmt RecordType.void
          "INSERT INTO user (name, age) VALUES ('Alice', 30)" []
        = some { result := Res.throw "execute: UNIQUE constraint failed: user.name",
                 conn := openConn,
                 trace := [Event.lock,
                   Event.prepare_v3 "INSERT INTO user (name, age) VALUES ('Alice', 30)" 0,
                   Event.step 19, Event.errmsg, Event.unlock] }
    ∧ ∃ o, execute sampleConv openConn constraintStmt RecordType.void
          "INSERT INTO user (name, age) VALUES ('Alice', 30)" [] = some o
        ∧ ((∃ v, o.result = Res.ok v) →
            o.trace.countP Event.isFinalize = 1 ∧ liveStatements 0 o.trace = 0)
        ∧ (∀ w, o.result = Res.throw w →
            o.trace.countP Event.isFinalize = 0 ∧ liveStatements 0 o.trace = 0 + 1) :=
  ⟨⟨rfl, rfl, rfl⟩, rfl,
   execute_finalizes_only_on_return sampleConv openConn constraintStmt RecordType.void
     "INSERT INTO user (name, age) VALUES ('Alice', 30)" [] 1 0 rfl rfl rfl⟩

theorem step_and_decode_events (cv : Conv) (c : Conn) (diag : String) (vm : Option StmtScript)
    (R : RecordType) (h : Nat) (hc : c.conn_ = some h) :
    ∀ e ∈ (step_and_decode cv c diag vm R).2,
      e.isBind = false ∧ e ≠ Event.lock ∧ e ≠ Event.unlock ∧ e.isEngineCall = true := by
  obtain ⟨pre, hpre, hshape⟩ := step_and_decode_shape cv c diag vm R h hc
  intro e he
  have hp : e ∈ pre →
      e.isBind = false ∧ e ≠ Event.lock ∧ e ≠ Event.unlock ∧ e.isEngineCall = true := by
    intro h1
    obtain ⟨f1, -, -, f4, f5, f6, -⟩ := loop_event_facts (hpre e h1)
    exact ⟨f1, f4, f5, f6⟩
  rcases hshape with ⟨w, hs, -⟩ | ⟨-, ret, hs⟩ | ⟨-, hs⟩
  · rw [hs] at he
    exact hp he
  · rw [hs] at he
    simp only [List.mem_append, List.mem_cons, List.mem_singleton, List.not_mem_nil,
      or_false] at he
    rcases he with he | he | he
    · exact hp he
    · subst he; simp [Event.isBind, Event.isEngineCall]
    · subst he; simp [Event.isBind, Event.isEngineCall]
  · rw [hs] at he
    simp only [List.mem_append, List.mem_cons, List.mem_singleton, List.not_mem_nil,
      or_false] at he
    rcases he with he | he | he
    · exact hp he
    · subst he; simp [Event.isBind, Event.isEngineCall]
    · subst he; simp [Event.isBind, Event.isEngineCall]

/-- The bind calls of an `execute` whose compile succeeded are the calls of its bind
phase. -/
theorem bindEvents_execute (cv : Conv) (c : Conn) (s : StmtScript) (R : RecordType)
    (stmt : String) (args : List Arg) (h : Nat) (hc : c.conn_ = some h)
    (hm : c.mtx_ = false) (hp : s.prepareRc = SQLITE_OK) :
    ∃ o, execute cv c s R stmt args = some o
      ∧ bindEvents o.trace = (bind_args (some s) cv 1 args).2 := by
  have hB : (bind_args (some s) cv 1 args).2.filter Event.isBind
      = (bind_args (some s) cv 1 args).2 :=
    List.filter_eq_self.mpr fun e he => bind_args_isBind (some s) cv args 1 e he
  rcases execute_prepared cv c s R stmt args h hc hm hp with ⟨w, -, he⟩ | ⟨-, he⟩
  · refine ⟨_, he, ?_⟩
    simp [bindEvents, List.filter_cons, List.filter_append, Event.isBind, hB]
  · refine ⟨_, he, ?_⟩
    have hS : (step_and_decode cv c s.errmsg (some s) R).2.filter Event.isBind = [] := by
      rw [List.filter_eq_nil_iff]
      intro e he
      simp [(step_and_decode_events cv c s.errmsg (some s) R h hc e he).1]
    simp [bindEvents, List.filter_cons, List.filter_append, Event.isBind, hB, hS]

/-- Claim C3: on an open connection, after a successful compile, the `i`-th bind call
issued (from 0) is the call `sqlite3pp_bind` makes for argument `a_(i+1)` at parameter index
`i + 1`; when every argument type is supported and the engine refuses no bind there are
exactly `N` bind calls; and a bind call that the engine answers with a code other than
`SQLITE_OK` makes `execute` fail with the bind error, without any step call. -/
theorem bind_calls_in_argument_order (cv : Conv) (c : Conn) (s : StmtScript)
    (R : RecordType) (stmt : String) (args : List Arg) (h : Nat)
    (hc : c.conn_ = some h) (hm : c.mtx_ = false) (hp : s.prepareRc = SQLITE_OK) :
    ∃ o, execute cv c s R stmt args = some o
      ∧ (∀ (i : Nat) (e : Event), (bindEvents o.trace)[i]? = some e →
          ∃ a call, args[i]? = some a ∧ e = Event.bind (i + 1) call (s.bindRc (i + 1))
            ∧ (sqlite3pp_bind (some s) cv (i + 1) a).2 = [e])
      ∧ ((∀ a ∈ args, a.supported = true) →
          (∀ i, 1 ≤ i → i ≤ args.length → s.bindRc i = SQLITE_OK) →
          (bindEvents o.trace).length = args.length)
      ∧ (∀ (p : Nat) (call : BindCall) (rc : Int),
          Event.bind p call rc ∈ o.trace → rc ≠ SQLITE_OK →
          o.result = Res.throw ("sqlite3_bind err:" ++ toString rc)
            ∧ ∀ r, Event.step r ∉ o.trace) := by
  obtain ⟨o, ho, hb⟩ := bindEvents_execute cv c s R stmt args h hc hm hp
  refine ⟨o, ho, ?_, ?_, ?_⟩
  · intro i e hi
    rw [hb] at hi
    obtain ⟨a, call, h1, h2, h3⟩ := bind_args_nth (some s) cv args 1 i e hi
    rw [Nat.add_comm 1 i] at h2 h3
    exact ⟨a, call, h1, h2, h3⟩
  · intro hs hrc
    rw [hb]
    exact (bind_args_ok (some s) cv args hs 1 fun i h1 h2 => hrc i h1 (by omega)).2
  · intro p call rc hmem hrc
    have hin : Event.bind p call rc ∈ (bind_args (some s) cv 1 args).2 := by
      rw [← hb]
      exact List.mem_filter.mpr ⟨hmem, rfl⟩
    have hfail := bind_args_fail (some s) cv args 1 p call rc hin hrc
    rcases execute_prepared cv c s R stmt args h hc hm hp with ⟨w, hw, he⟩ | ⟨hok, -⟩
    · rw [he] at ho
      simp only [Option.some.injEq] at ho
      subst ho
      rw [hfail] at hw
      simp only [Res.throw.injEq] at hw
      refine ⟨by rw [hw], ?_⟩
      intro r hr
      simp only [List.mem_cons, List.mem_append, List.mem_singleton, reduceCtorEq,
        false_or, or_false, List.not_mem_nil] at hr
      have := (bind_event_facts (bind_args_isBind (some s) cv args 1 _ hr)).2.2.1
      simp [Event.isStep] at this
    · rw [hfail] at hok
      simp at hok

/-- Witness for C3: the query of `main.cpp` with the arguments `age` and `name`, the name
passed as a present `std::optional<std::string>`, on an engine that refuses the second
bind. -/
theorem bind_calls_in_argument_order_witness :
    (openConn.conn_ = some 1 ∧ openConn.mtx_ = false ∧ rangeStmt.prepareRc = SQLITE_OK)
    ∧ execute sampleConv openConn rangeStmt (RecordType.tuple [FieldType.int IntType.i32])
          "select count(*) as cnt from user where age = ? and name = ?"
          [Arg.int IntType.i32 30, Arg.optSome (Arg.text "Alice")]
        = some { result := Res.throw "sqlite3_bind err:25", conn := openConn,
                 trace := [Event.lock,
                   Event.prepare_v3 "select count(*) as cnt from user where age = ? and name = ?" 0,
                   Event.bind 1 (BindCall.bind_int 30) 0,
                   Event.bind 2 (BindCall.bind_text "Alice") 25, Event.unlock] }
    ∧ ∃ o, execute sampleConv openConn rangeStmt (RecordType.tuple [FieldType.int IntType.i32])
          "select count(*) as cnt from user where age = ? and name = ?"
          [Arg.int IntType.i32 30, Arg.optSome (Arg.text "Alice")] = some o
      ∧ (∀ (i : Nat) (e : Event), (bindEvents o.trace)[i]? = some e →
          ∃ a call, [Arg.int IntType.i32 30, Arg.optSome (Arg.text "Alice")][i]? = some a
            ∧ e = Event.bind (i + 1) call (rangeStmt.bindRc (i + 1))
            ∧ (sqlite3pp_bind (some rangeStmt) sampleConv (i + 1) a).2 = [e])
      ∧ ((∀ a ∈ [Arg.int IntType.i32 30, Arg.optSome (Arg.text "Alice")], a.supported = true) →
          (∀ i, 1 ≤ i → i ≤ [Arg.int IntType.i32 30, Arg.optSome (Arg.text "Alice")].length →
            rangeStmt.bindRc i = SQLITE_OK) →
          (bindEvents o.trace).length = [Arg.int IntType.i32 30, Arg.optSome (Arg.text "Alice")].length)
      ∧ (∀ (p : Nat) (call : BindCall) (rc : Int),
          Event.bind p call rc ∈ o.trace → rc ≠ SQLITE_OK →
          o.result = Res.throw ("sqlite3_bind err:" ++ toString rc)
            ∧ ∀ r, Event.step r ∉ o.trace) :=
  ⟨⟨rfl, rfl, rfl⟩, rfl,
   bind_calls_in_argument_order sampleConv openConn rangeStmt
     (RecordType.tuple [FieldType.int IntType.i32])
     "select count(*) as cnt from user where age = ? and name = ?"
     [Arg.int IntType.i32 30, Arg.optSome (Arg.text "Alice")] 1 rfl rfl rfl⟩

/-- Claim C5: on an open connection a failed compile makes `execute` fail with
"sqlite3_prepare_v3: " followed by the engine's diagnostic, after the compile and the
`sqlite3_errmsg` call only (no bind, no step); a step that answers neither `SQLITE_ROW`
nor `SQLITE_DONE` makes `execute` fail with "execute: " followed by the diagnostic; and
`throw_except` does not return normally on an object that passed `check_conn`. -/
theorem engine_failure_propagates (cv : Conv) (c : Conn) (s : StmtScript) (R : RecordType)
    (stmt : String) (args : List Arg) (h : Nat) (hc : c.conn_ = some h)
    (hm : c.mtx_ = false) :
    (s.prepareRc ≠ SQLITE_OK →
        execute cv c s R stmt args
          = some { result := Res.throw ("sqlite3_prepare_v3: " ++ s.errmsg), conn := c,
                   trace := [Event.lock, Event.prepare_v3 stmt s.prepareRc, Event.errmsg,
                     Event.unlock] })
    ∧ (∃ o, execute cv c s R stmt args = some o
        ∧ ∀ rc, Event.step rc ∈ o.trace → rc ≠ SQLITE_ROW → rc ≠ SQLITE_DONE →
            o.result = Res.throw ("execute: " ++ s.errmsg))
    ∧ (check_conn c = Act.pure ()
        ∧ ∀ what, (throw_except c s.errmsg what).1 ≠ Res.ok ()) := by
  have hfail : s.prepareRc ≠ SQLITE_OK →
      execute cv c s R stmt args
        = some { result := Res.throw ("sqlite3_prepare_v3: " ++ s.errmsg), conn := c,
                 trace := [Event.lock, Event.prepare_v3 stmt s.prepareRc, Event.errmsg,
                   Event.unlock] } := by
    intro hp
    rw [execute_eq_impl cv c s R stmt args hm,
      execute_impl_prepare_fail cv c s R stmt args h hc hp]
    rfl
  refine ⟨hfail, ?_, ?_⟩
  · by_cases hp : s.prepareRc = SQLITE_OK
    · rcases execute_prepared cv c s R stmt args h hc hm hp with ⟨w, -, he⟩ | ⟨-, he⟩
      · refine ⟨_, he, ?_⟩
        intro rc hr _ _
        simp only [List.mem_cons, List.mem_append, List.mem_singleton, reduceCtorEq,
          false_or, or_false, List.not_mem_nil] at hr
        have := (bind_event_facts (bind_args_isBind (some s) cv args 1 _ hr)).2.2.1
        simp [Event.isStep] at this
      · refine ⟨_, he, ?_⟩
        intro rc hr hrow hdone
        simp only [List.mem_cons, List.mem_append, List.mem_singleton, reduceCtorEq,
          false_or, or_false, List.not_mem_nil] at hr
        rcases hr with hr | hr
        · have := (bind_event_facts (bind_args_isBind (some s) cv args 1 _ hr)).2.2.1
          simp [Event.isStep] at this
        · obtain ⟨pre, hpre, hshape⟩ := step_and_decode_shape cv c s.errmsg (some s) R h hc
          have hnp : Event.step rc ∉ pre := fun hin =>
            hrow ((loop_event_facts (hpre _ hin)).2.2.2.2.2.2 rc rfl)
          rcases hshape with ⟨w, hs, -⟩ | ⟨-, ret, hs⟩ | ⟨-, hs⟩
          · rw [hs] at hr
            exact absurd hr hnp
          · rw [hs] at hr
            simp only [List.mem_append, List.mem_cons, List.mem_singleton, Event.step.injEq,
              reduceCtorEq, or_false, List.not_mem_nil] at hr
            rcases hr with hr | hr
            · exact absurd hr hnp
            · exact absurd hr hdone
          · rw [hs]
    · refine ⟨_, hfail hp, ?_⟩
      intro rc hr _ _
      simp at hr
  · refine ⟨by simp [check_conn, hc], ?_⟩
    intro what
    unfold throw_except
    simp only [hc, Option.isNone_some, Bool.false_eq_true, if_false]
    split <;> simp

/-- Witness for C5: the first PRAGMA on a file that is not a database. -/
theorem engine_failure_propagates_witness :
    (openConn.conn_ = some 1 ∧ openConn.mtx_ = false)
    ∧ ((notADbStmt.prepareRc ≠ SQLITE_OK →
        execute sampleConv openConn notADbStmt RecordType.void "PRAGMA journal_mode=WAL;" []
          = some { result := Res.throw ("sqlite3_prepare_v3: " ++ notADbStmt.errmsg),
                   conn := openConn,
                   trace := [Event.lock,
                     Event.prepare_v3 "PRAGMA journal_mode=WAL;" notADbStmt.prepareRc,
                     Event.errmsg, Event.unlock] })
      ∧ (∃ o, execute sampleConv openConn notADbStmt RecordType.void
            "PRAGMA journal_mode=WAL;" [] = some o
          ∧ ∀ rc, Event.step rc ∈ o.trace → rc ≠ SQLITE_ROW → rc ≠ SQLITE_DONE →
              o.result = Res.throw ("execute: " ++ notADbStmt.errmsg))
      ∧ (check_conn openConn = Act.pure ()
          ∧ ∀ what, (throw_except openConn notADbStmt.errmsg what).1 ≠ Res.ok ())) :=
  ⟨⟨rfl, rfl⟩,
   engine_failure_propagates sampleConv openConn notADbStmt RecordType.void
     "PRAGMA journal_mode=WAL;" [] 1 rfl rfl⟩

/-- The tuple branch on an open connection when the engine yields its rows and then
`SQLITE_DONE`, for supported field types: one tuple per row, in row order, each the
decoding of its row from column 0 on. -/
theorem execute_tuple_done (cv : Conv) (c : Conn) (s : StmtScript) (stmt : String)
    (args : List Arg) (fields : List FieldType) (h : Nat)
    (hc : c.conn_ = some h) (hm : c.mtx_ = false) (hp : s.prepareRc = SQLITE_OK)
    (hargs : ∀ a ∈ args, a.supported = true)
    (hbind : ∀ i, 1 ≤ i → i ≤ args.length → s.bindRc i = SQLITE_OK)
    (hfields : ∀ t ∈ fields, t.supported = true) (hdone : s.finalRc = SQLITE_DONE) :
    ∃ (o : Outcome Ret) (recs : List Record),
      execute cv c s (RecordType.tuple fields) stmt args = some o
      ∧ o.result = Res.ok (Ret.rows recs)
      ∧ recs.length = s.rows.length
      ∧ ∀ (i : Nat) (row : Row), s.rows[i]? = some row →
          ∃ r : Record, recs[i]? = some r ∧ (decode_row cv row 0 fields).1 = Res.ok r := by
  have hb := (bind_args_ok (some s) cv args hargs 1
    fun i h1 h2 => hbind i h1 (by omega)).1
  rcases execute_prepared cv c s (RecordType.tuple fields) stmt args h hc hm hp with
    ⟨w, hw, -⟩ | ⟨-, he⟩
  · rw [hb] at hw; simp at hw
  · obtain ⟨recs, h1, h2, h3⟩ := fetch_rows_ok cv fields hfields s.rows []
    refine ⟨_, recs, he, ?_, h2, h3⟩
    simp only [step_and_decode, stmtRows, stmtFinalRc]
    rcases hx : fetch_rows cv fields s.rows [] with ⟨r, ev⟩
    rw [hx] at h1
    simp only [List.nil_append] at h1
    subst h1
    rw [Act.bind_ok, finish_stmt_open c s.errmsg _ h hc, if_pos hdone]
    rfl

/-- Claim C2: on an open connection, when the compile and all binds succeed and the
engine yields `k` rows and then `SQLITE_DONE`, `execute` with a tuple type of supported
field types returns exactly `k` tuples in the order of the rows; field `j` of tuple `i` is
what `sqlite3pp_column` decodes from column `j` of row `i` at the type of field `j`; with
no row the result is empty. -/
theorem execute_returns_rows_in_order (cv : Conv) (c : Conn) (s : StmtScript) (stmt : String)
    (args : List Arg) (fields : List FieldType) (h : Nat)
    (hc : c.conn_ = some h) (hm : c.mtx_ = false) (hp : s.prepareRc = SQLITE_OK)
    (hargs : ∀ a ∈ args, a.supported = true)
    (hbind : ∀ i, 1 ≤ i → i ≤ args.length → s.bindRc i = SQLITE_OK)
    (hfields : ∀ t ∈ fields, t.supported = true) (hdone : s.finalRc = SQLITE_DONE) :
    ∃ (o : Outcome Ret) (recs : List Record),
      execute cv c s (RecordType.tuple fields) stmt args = some o
      ∧ o.result = Res.ok (Ret.rows recs)
      ∧ recs.length = s.rows.length
      ∧ (∀ (i : Nat) (row : Row), s.rows[i]? = some row →
          ∃ r : Record, recs[i]? = some r ∧ r.length = fields.length
            ∧ ∀ (j : Nat) (t : FieldType), fields[j]? = some t →
                ∃ f, r[j]? = some f ∧ (sqlite3pp_column cv row j t).1 = Res.ok f)
      ∧ (s.rows = [] → recs = []) := by
  obtain ⟨o, recs, h1, h2, h3, h4⟩ :=
    execute_tuple_done cv c s stmt args fields h hc hm hp hargs hbind hfields hdone
  refine ⟨o, recs, h1, h2, h3, ?_, ?_⟩
  · intro i row hi
    obtain ⟨r, hr1, hr2⟩ := h4 i row hi
    obtain ⟨r', hd1, hd2, hd3⟩ := decode_row_ok cv row fields hfields 0
    rw [hr2] at hd1
    simp only [Res.ok.injEq] at hd1
    subst hd1
    refine ⟨r, hr1, hd2, ?_⟩
    intro j t hj
    obtain ⟨f, hf1, hf2⟩ := hd3 j t hj
    rw [Nat.zero_add] at hf2
    exact ⟨f, hf1, hf2⟩
  · intro hnil
    rw [hnil] at h3
    exact List.length_eq_zero.mp h3

/-- Witness for C2: the query `select * from user` of `main.cpp` on the three rows
inserted there. -/
theorem execute_returns_rows_in_order_witness :
    execute sampleConv openConn (okStmt userRows)
        (RecordType.tuple [FieldType.int IntType.i32, FieldType.text, FieldType.int IntType.i32])
        "select * from user" []
      = some { result := Res.ok (Ret.rows
                 [[Field.int 1, Field.text "Alice", Field.int 30],
                  [Field.int 2, Field.text "Bob", Field.int 25],
                  [Field.int 3, Field.text "Charlie", Field.int 35]]),
               conn := openConn,
               trace := [Event.lock, Event.prepare_v3 "select * from user" 0,
                 Event.step 100, Event.column Accessor.column_int 0,
                 Event.column Accessor.column_text 1, Event.column Accessor.column_bytes 1,
                 Event.column Accessor.column_int 2,
                 Event.step 100, Event.column Accessor.column_int 0,
                 Event.column Accessor.column_text 1, Event.column Accessor.column_bytes 1,
                 Event.column Accessor.column_int 2,
                 Event.step 100, Event.column Accessor.column_int 0,
                 Event.column Accessor.column_text 1, Event.column Accessor.column_bytes 1,
                 Event.column Accessor.column_int 2,
                 Event.step 101, Event.finalize, Event.unlock] }
    ∧ ∃ (o : Outcome Ret) (recs : List Record),
      execute sampleConv openConn (okStmt userRows)
        (RecordType.tuple [FieldType.int IntType.i32, FieldType.text, FieldType.int IntType.i32])
        "select * from user" [] = some o
      ∧ o.result = Res.ok (Ret.rows recs)
      ∧ recs.length = (okStmt userRows).rows.length
      ∧ (∀ (i : Nat) (row : Row), (okStmt userRows).rows[i]? = some row →
          ∃ r : Record, recs[i]? = some r
            ∧ r.length
                = [FieldType.int IntType.i32, FieldType.text, FieldType.int IntType.i32].length
            ∧ ∀ (j : Nat) (t : FieldType),
                [FieldType.int IntType.i32, FieldType.text, FieldType.int IntType.i32][j]?
                  = some t →
                ∃ f, r[j]? = some f ∧ (sqlite3pp_column sampleConv row j t).1 = Res.ok f)
      ∧ ((okStmt userRows).rows = [] → recs = []) :=
  ⟨rfl,
   execute_returns_rows_in_order sampleConv openConn (okStmt userRows) "select * from user" []
     [FieldType.int IntType.i32, FieldType.text, FieldType.int IntType.i32] 1 rfl rfl rfl
     (by simp) (by intro i h1 h2; rfl) (by decide) rfl⟩

/-- Counterexample to C9: a tuple of two fields is requested from a result set of one
column; `execute` does not fail, returns a tuple, and its second field was read at column
index 1, outside the result set. -/
theorem column_count_mismatch_not_rejected :
    execute sampleConv openConn (okStmt [[Value.integer 7]])
        (RecordType.tuple [FieldType.int IntType.i32, FieldType.int IntType.i32])
        "select 7" []
      = some { result := Res.ok (Ret.rows [[Field.int 7, Field.int 0]]), conn := openConn,
               trace := [Event.lock, Event.prepare_v3 "select 7" 0, Event.step 100,
                 Event.column Accessor.column_int 0, Event.column Accessor.column_int 1,
                 Event.step 101, Event.finalize, Event.unlock] }
    ∧ List.any [Event.lock, Event.prepare_v3 "select 7" 0, Event.step 100,
          Event.column Accessor.column_int 0, Event.column Accessor.column_int 1,
          Event.step 101, Event.finalize, Event.unlock] (Event.readsOutside 1) = true :=
  ⟨by rfl, by decide⟩

/-- Claim C9 as amended: `execute` makes no check of the column count.  When the compile
and all binds succeed and the engine yields `k` rows of `m` columns and then
`SQLITE_DONE`, `execute` with a tuple type of `n` supported fields returns `k` tuples of
`n` fields, whatever `m` is; a field at an index `j ≥ m` is what `sqlite3pp_column`
decodes from the engine's answer to a read outside the result set (NULL). -/
theorem execute_ignores_column_count (cv : Conv) (c : Conn) (s : StmtScript) (stmt : String)
    (args : List Arg) (fields : List FieldType) (h m : Nat)
    (hc : c.conn_ = some h) (hm : c.mtx_ = false) (hp : s.prepareRc = SQLITE_OK)
    (hargs : ∀ a ∈ args, a.supported = true)
    (hbind : ∀ i, 1 ≤ i → i ≤ args.length → s.bindRc i = SQLITE_OK)
    (hfields : ∀ t ∈ fields, t.supported = true) (hdone : s.finalRc = SQLITE_DONE)
    (hcols : ∀ row ∈ s.rows, row.length = m) :
    ∃ (o : Outcome Ret) (recs : List Record),
      execute cv c s (RecordType.tuple fields) stmt args = some o
      ∧ o.result = Res.ok (Ret.rows recs)
      ∧ recs.length = s.rows.length
      ∧ ∀ r ∈ recs, r.length = fields.length
          ∧ ∀ (j : Nat) (t : FieldType), fields[j]? = some t → m ≤ j →
              ∃ f, r[j]? = some f
                ∧ (sqlite3pp_column cv [Value.null] 0 t).1 = Res.ok f := by
  obtain ⟨o, recs, h1, h2, h3, h4⟩ :=
    execute_tuple_done cv c s stmt args fields h hc hm hp hargs hbind hfields hdone
  refine ⟨o, recs, h1, h2, h3, ?_⟩
  intro r hr
  obtain ⟨i, hi, hget⟩ := List.getElem_of_mem hr
  have hi' : i < s.rows.length := by omega
  have hrow : s.rows[i]? = some s.rows[i] := List.getElem?_eq_getElem hi'
  obtain ⟨r', hr1, hr2⟩ := h4 i s.rows[i] hrow
  have hrr : r' = r := by
    rw [List.getElem?_eq_getElem hi, Option.some.injEq] at hr1
    rw [← hr1, hget]
  subst hrr
  obtain ⟨r2, hd1, hd2, hd3⟩ := decode_row_ok cv s.rows[i] fields hfields 0
  rw [hr2] at hd1
  simp only [Res.ok.injEq] at hd1
  subst hd1
  refine ⟨hd2, ?_⟩
  intro j t hj hmj
  obtain ⟨f, hf1, hf2⟩ := hd3 j t hj
  refine ⟨f, hf1, ?_⟩
  rw [Nat.zero_add, sqlite3pp_column_value] at hf2
  have hlen : s.rows[i].length = m := hcols _ (List.getElem_mem hi')
  have hnull : columnValue s.rows[i] j = Value.null := by
    unfold columnValue
    exact List.getD_eq_default _ _ (by omega)
  rw [hnull] at hf2
  exact hf2

/-- Witness for C9 as amended: two fields requested from one column. -/
theorem execute_ignores_column_count_witness :
    (∀ row ∈ (okStmt [[Value.integer 7]]).rows, row.length = 1)
    ∧ ∃ (o : Outcome Ret) (recs : List Record),
      execute sampleConv openConn (okStmt [[Value.integer 7]])
          (RecordType.tuple [FieldType.int IntType.i32, FieldType.int IntType.i32])
          "select 7" [] = some o
      ∧ o.result = Res.ok (Ret.rows recs)
      ∧ recs.length = (okStmt [[Value.integer 7]]).rows.length
      ∧ ∀ r ∈ recs, r.length = [FieldType.int IntType.i32, FieldType.int IntType.i32].length
          ∧ ∀ (j : Nat) (t : FieldType),
              [FieldType.int IntType.i32, FieldType.int IntType.i32][j]? = some t → 1 ≤ j →
              ∃ f, r[j]? = some f
                ∧ (sqlite3pp_column sampleConv [Value.null] 0 t).1 = Res.ok f :=
  ⟨by simp [okStmt],
   execute_ignores_column_count sampleConv openConn (okStmt [[Value.integer 7]]) "select 7" []
     [FieldType.int IntType.i32, FieldType.int IntType.i32] 1 1 rfl rfl rfl
     (by simp) (by intro i h1 h2; rfl) (by decide) rfl (by simp [okStmt])⟩

/-! ## The mutex -/

theorem guarded_locked (l : List Event) (h : ∀ e ∈ l, e ≠ Event.lock ∧ e ≠ Event.unlock) :
    guarded true (l ++ [Event.unlock]) = true ∧ heldAfter true (l ++ [Event.unlock]) = false := by
  induction l with
  | nil => exact ⟨rfl, rfl⟩
  | cons e rest ih =>
      obtain ⟨h1, h2⟩ := h e (List.mem_cons_self _ _)
      obtain ⟨i1, i2⟩ := ih fun x hx => h x (List.mem_cons_of_mem _ hx)
      cases e <;> simp_all [guarded, heldAfter]

/-- A record that starts with the lock, ends with the unlock and has neither in between
keeps every engine call under the mutex and leaves the mutex free. -/
theorem guarded_wrap (l : List Event) (h : ∀ e ∈ l, e ≠ Event.lock ∧ e ≠ Event.unlock) :
    guarded false (Event.lock :: l ++ [Event.unlock]) = true
      ∧ heldAfter false (Event.lock :: l ++ [Event.unlock]) = false := by
  obtain ⟨h1, h2⟩ := guarded_locked l h
  exact ⟨by simp [guarded, h1], by simp [heldAfter, h2]⟩

/-- No call of `execute_impl` touches the mutex. -/
theorem execute_impl_events (cv : Conv) (c : Conn) (s : StmtScript) (R : RecordType)
    (stmt : String) (args : List Arg) :
    ∀ e ∈ (execute_impl cv c s R stmt args).2, e ≠ Event.lock ∧ e ≠ Event.unlock := by
  intro e he
  cases hcn : c.conn_ with
  | none =>
      have : execute_impl cv c s R stmt args = (Res.throw "Expect connection !!!", []) := by
        simp [execute_impl, check_conn, hcn, Act.bind]
      rw [this] at he
      simp at he
  | some h =>
      by_cases hp : s.prepareRc = SQLITE_OK
      · rw [execute_impl_prepared cv c s R stmt args h hcn hp] at he
        rcases Act.mem_bind _ _ he with he | ⟨_, -, he⟩
        · simp only [List.mem_singleton] at he
          subst he
          simp
        · rcases Act.mem_bind _ _ he with he | ⟨_, -, he⟩
          · obtain ⟨-, -, -, f4, f5, -⟩ :=
              bind_event_facts (bind_args_isBind (some s) cv args 1 e he)
            exact ⟨f4, f5⟩
          · obtain ⟨-, f2, f3, -⟩ := step_and_decode_events cv c s.errmsg (some s) R h hcn e he
            exact ⟨f2, f3⟩
      · rw [execute_impl_prepare_fail cv c s R stmt args h hcn hp] at he
        simp only [List.mem_cons, List.mem_singleton, List.not_mem_nil, or_false] at he
        rcases he with he | he <;> subst he <;> simp

theorem open_pragmas_events (cv : Conv) (c : Conn) (e : OpenScript) :
    ∀ x ∈ (open_pragmas cv c e).2, x ≠ Event.lock ∧ x ≠ Event.unlock := by
  intro x hx
  unfold open_pragmas at hx
  rcases Act.mem_bind _ _ hx with hx | ⟨_, -, hx⟩
  · exact execute_impl_events _ _ _ _ _ _ x hx
  · rcases Act.mem_bind _ _ hx with hx | ⟨_, -, hx⟩
    · exact execute_impl_events _ _ _ _ _ _ x hx
    · rcases Act.mem_bind _ _ hx with hx | ⟨_, -, hx⟩
      · exact execute_impl_events _ _ _ _ _ _ x hx
      · exact execute_impl_events _ _ _ _ _ _ x hx

/-- No call of the body of `open` touches the mutex, and the body leaves `mtx_` alone. -/
theorem open_body_events (cv : Conv) (c : Conn) (e : OpenScript) (sourcename : String)
    (timeout : Int) :
    (∀ x ∈ (open_body cv c e sourcename timeout).2.2, x ≠ Event.lock ∧ x ≠ Event.unlock)
      ∧ (open_body cv c e sourcename timeout).2.1.mtx_ = c.mtx_ := by
  unfold open_body
  by_cases h1 : c.conn_.isSome = true
  · simp [h1]
  · by_cases h2 : e.rc = SQLITE_OK
    · have hp := open_pragmas_events cv { c with conn_ := some e.handle } e
      rcases hx : open_pragmas cv { c with conn_ := some e.handle } e with ⟨r, ev⟩
      rw [hx] at hp
      simp only at hp
      by_cases h3 : sourcename = ":memory:" <;> by_cases h4 : timeout > 0 <;> cases r <;>
        simp only [h1, h2, h3, h4, hx, ne_eq, not_true_eq_false, if_false, if_true,
          Bool.false_eq_true, and_true, List.mem_append, List.mem_singleton, List.mem_cons,
          List.not_mem_nil, or_false, false_or, List.nil_append, List.append_nil] <;>
        intro x hx <;> aesop
    · by_cases h3 : sourcename = ":memory:" <;>
        simp only [h1, h2, h3, ne_eq, not_false_eq_true, if_false, if_true,
          Bool.false_eq_true, and_true, List.mem_append, List.mem_singleton, List.mem_cons,
          List.not_mem_nil, or_false, false_or, List.nil_append, List.append_nil] <;>
        intro x hx <;> aesop

/-- Counterexample to C10: `unsafe_execute`, a member of the public section, started with
the mutex free, compiles, steps and finalizes a statement without taking the mutex, and
`make_lock` returns with the mutex still locked. -/
theorem unsafe_execute_runs_unguarded :
    (unsafe_execute sampleConv openConn (okStmt []) RecordType.void "select 1" []).trace
        = [Event.prepare_v3 "select 1" 0, Event.step 101, Event.finalize]
      ∧ guarded false
          (unsafe_execute sampleConv openConn (okStmt []) RecordType.void "select 1" []).trace
          = false
      ∧ (make_lock openConn).map (fun o => (o.conn.mtx_, heldAfter false o.trace))
          = some (true, true) :=
  ⟨rfl, rfl, rfl⟩

theorem open_eq (cv : Conv) (c : Conn) (e : OpenScript) (sourcename : String) (timeout : Int)
    (hm : c.mtx_ = false) :
    «open» cv c e sourcename timeout
      = some { result := (open_body cv { c with mtx_ := true } e sourcename timeout).1,
               conn := { (open_body cv { c with mtx_ := true } e sourcename timeout).2.1 with
                         mtx_ := false },
               trace := Event.lock ::
                 (open_body cv { c with mtx_ := true } e sourcename timeout).2.2
                   ++ [Event.unlock] } := by
  simp [«open», hm]

theorem make_lock_eq (c : Conn) (hm : c.mtx_ = false) :
    make_lock c
      = some { result := Res.ok (), conn := { c with mtx_ := true }, trace := [Event.lock] } := by
  simp [make_lock, hm]

/-- Claim C10 as amended: `open`, `close`, the destructor and `execute`, started with the
mutex free, make every engine call while they hold the mutex and leave it free when they
return or fail.  `unsafe_execute` runs the same `execute_impl` as `execute` without
touching the mutex, and `make_lock` locks the mutex and returns with it locked. -/
theorem locking_operations_hold_guard (cv : Conv) (c : Conn) (e : OpenScript)
    (sourcename : String) (timeout : Int) (s : StmtScript) (R : RecordType) (stmt : String)
    (args : List Arg) (hm : c.mtx_ = false) :
    (∃ o, «open» cv c e sourcename timeout = some o
        ∧ guarded false o.trace = true ∧ heldAfter false o.trace = false
        ∧ o.conn.mtx_ = false)
    ∧ (∃ o, close c = some o
        ∧ guarded false o.trace = true ∧ heldAfter false o.trace = false
        ∧ o.conn.mtx_ = false)
    ∧ (∃ o, destructor c = some o
        ∧ guarded false o.trace = true ∧ heldAfter false o.trace = false
        ∧ o.conn.mtx_ = false)
    ∧ (∃ o, execute cv c s R stmt args = some o
        ∧ guarded false o.trace = true ∧ heldAfter false o.trace = false
        ∧ o.conn.mtx_ = false
        ∧ o.result = (execute_impl cv c s R stmt args).1)
    ∧ ((unsafe_execute cv c s R stmt args).result = (execute_impl cv c s R stmt args).1
        ∧ (unsafe_execute cv c s R stmt args).trace = (execute_impl cv c s R stmt args).2
        ∧ Event.lock ∉ (unsafe_execute cv c s R stmt args).trace
        ∧ (unsafe_execute cv c s R stmt args).conn = c)
    ∧ (∃ o, make_lock c = some o ∧ o.trace = [Event.lock] ∧ o.conn.mtx_ = true) := by
  have hclose : ∃ o, close c = some o
      ∧ guarded false o.trace = true ∧ heldAfter false o.trace = false
      ∧ o.conn.mtx_ = false := by
    unfold close
    by_cases h1 : c.closed_ = true <;> by_cases h2 : c.conn_.isSome = true <;>
      simp [hm, h1, h2, guarded, heldAfter, Event.isEngineCall]
  refine ⟨?_, hclose, hclose, ?_, ?_, ?_⟩
  · obtain ⟨h1, -⟩ := open_body_events cv { c with mtx_ := true } e sourcename timeout
    obtain ⟨g1, g2⟩ := guarded_wrap _ h1
    exact ⟨_, open_eq cv c e sourcename timeout hm, g1, g2, rfl⟩
  · obtain ⟨g1, g2⟩ := guarded_wrap _ (execute_impl_events cv c s R stmt args)
    exact ⟨_, execute_eq_impl cv c s R stmt args hm, g1, g2, hm, rfl⟩
  · exact ⟨rfl, rfl, fun hin => (execute_impl_events cv c s R stmt args _ hin).1 rfl, rfl⟩
  · exact ⟨_, make_lock_eq c hm, rfl, rfl⟩

/-- Witness for C10 as amended, on a freshly constructed object. -/
theorem locking_operations_hold_guard_witness :
    Conn.new.mtx_ = false
    ∧ ((∃ o, «open» sampleConv Conn.new okOpen ":memory:" (-1) = some o
        ∧ guarded false o.trace = true ∧ heldAfter false o.trace = false
        ∧ o.conn.mtx_ = false)
    ∧ (∃ o, close Conn.new = some o
        ∧ guarded false o.trace = true ∧ heldAfter false o.trace = false
        ∧ o.conn.mtx_ = false)
    ∧ (∃ o, destructor Conn.new = some o
        ∧ guarded false o.trace = true ∧ heldAfter false o.trace = false
        ∧ o.conn.mtx_ = false)
    ∧ (∃ o, execute sampleConv Conn.new (okStmt []) RecordType.void "select 1" [] = some o
        ∧ guarded false o.trace = true ∧ heldAfter false o.trace = false
        ∧ o.conn.mtx_ = false
        ∧ o.result = (execute_impl sampleConv Conn.new (okStmt []) RecordType.void "select 1" []).1)
    ∧ ((unsafe_execute sampleConv Conn.new (okStmt []) RecordType.void "select 1" []).result
          = (execute_impl sampleConv Conn.new (okStmt []) RecordType.void "select 1" []).1
        ∧ (unsafe_execute sampleConv Conn.new (okStmt []) RecordType.void "select 1" []).trace
          = (execute_impl sampleConv Conn.new (okStmt []) RecordType.void "select 1" []).2
        ∧ Event.lock ∉
            (unsafe_execute sampleConv Conn.new (okStmt []) RecordType.void "select 1" []).trace
        ∧ (unsafe_execute sampleConv Conn.new (okStmt []) RecordType.void "select 1" []).conn
          = Conn.new)
    ∧ (∃ o, make_lock Conn.new = some o ∧ o.trace = [Event.lock] ∧ o.conn.mtx_ = true)) :=
  ⟨rfl, locking_operations_hold_guard sampleConv Conn.new okOpen ":memory:" (-1) (okStmt [])
    RecordType.void "select 1" [] rfl⟩

/-- Claim C6, evaluated on the code: after `close()`, an `open` that fails at its first
PRAGMA (the file is not a database) and a second `close()`, the object still holds the
engine handle 7 that `sqlite3_open_v2` returned; the second `close` found `closed_` set
and made no engine call. -/
theorem close_after_failed_open_keeps_handle :
    runOps sampleConv [Op.close, Op.open pragmaFailOpen "/data/notes.txt" (-1)]
        = { mtx_ := false, closed_ := true, auto_commit_ := true, conn_ := some 7 }
      ∧ (close (runOps sampleConv [Op.close, Op.open pragmaFailOpen "/data/notes.txt" (-1)])).map
          (fun o => (o.result, o.conn.conn_, o.conn.closed_, o.trace))
        = some (Res.ok (), some 7, true, [Event.lock, Event.unlock])
      ∧ (runOps sampleConv
          [Op.close, Op.open pragmaFailOpen "/data/notes.txt" (-1), Op.close, Op.close]).conn_
        = some 7 :=
  ⟨rfl, rfl, rfl⟩

/-- Claim C7, evaluated on the code: an absent optional argument binds NULL, but
`sqlite3pp_column` never decodes an `std::optional` field to the absent state; a NULL
column read into `std::optional<int>` gives a present 0. -/
theorem null_column_decodes_present (cv : Conv) (vm : Option StmtScript) (p : Nat)
    (row : Row) (col : Nat) (t : FieldType) :
    (sqlite3pp_bind vm cv p Arg.optNone).2
        = [Event.bind p BindCall.bind_null (sqlite3_bind vm p)]
      ∧ BindCall.bind_null.stored = Value.null
      ∧ (sqlite3pp_column cv row col (FieldType.optional t)).1 ≠ Res.ok Field.absent
      ∧ (sqlite3pp_column cv [Value.null] 0 (FieldType.optional (FieldType.int IntType.i32))).1
          = Res.ok (Field.present (Field.int 0)) := by
  refine ⟨rfl, rfl, ?_, ?_⟩
  · simp only [sqlite3pp_column]
    rcases sqlite3pp_column cv row col t with ⟨r, ev⟩
    cases r <;> simp [Act.bind, Act.pure]
  · simp [sqlite3pp_column, Act.bind, Act.pure, IntType.sizeof, IntType.convert, columnValue,
      sqlite3_column_int, sqlite3_column_int64, wrapSigned]

/-- Claim C8: for every integral type `T` (8, 16, 32 or 64 bits, signed or unsigned, and
`bool`) and every value `v` of `T`, `sqlite3pp_bind` issues one bind call, `sqlite3_bind_int`
with `v` cast to `int` when `sizeof(T) <= 4` and `sqlite3_bind_int64` with `v` cast to
`int64_t` otherwise, and `sqlite3pp_column` at type `T` on the integer the engine stored
gives back `v`; an unsigned `v` that is at least 2^31 (2^63) is bound as `v - 2^32`
(`v - 2^64`). -/
theorem int_roundtrip (cv : Conv) (vm : Option StmtScript) (param_no : Nat) (t : IntType)
    (v : Int) (h : t.inRange v) :
    ∃ call : BindCall,
      (sqlite3pp_bind vm cv param_no (Arg.int t v)).2
          = [Event.bind param_no call (sqlite3_bind vm param_no)]
      ∧ call = (if t.sizeof ≤ 4 then BindCall.bind_int (wrapSigned 32 v)
                else BindCall.bind_int64 (wrapSigned 64 v))
      ∧ (sqlite3pp_column cv [call.stored] 0 (FieldType.int t)).1 = Res.ok (Field.int v)
      ∧ (t = IntType.u32 → 2 ^ 31 ≤ v → call = BindCall.bind_int (v - 2 ^ 32))
      ∧ (t = IntType.u64 → 2 ^ 63 ≤ v → call = BindCall.bind_int64 (v - 2 ^ 64)) := by
  cases t <;>
    simp only [IntType.inRange] at h <;>
    simp [sqlite3pp_bind, sqlite3pp_column, bind_call, IntType.sizeof, BindCall.stored,
      columnValue, sqlite3_column_int, sqlite3_column_int64, IntType.convert, wrapSigned,
      wrapUnsigned] <;>
    omega

/-- Witness for C8: the `uint32_t` value 4000000000, bound as the negative `int`
-294967296. -/
theorem int_roundtrip_witness :
    IntType.u32.inRange 4000000000
    ∧ (sqlite3pp_bind (some (okStmt [])) sampleConv 1 (Arg.int IntType.u32 4000000000)).2
        = [Event.bind 1 (BindCall.bind_int (-294967296)) 0]
    ∧ ∃ call : BindCall,
      (sqlite3pp_bind (some (okStmt [])) sampleConv 1 (Arg.int IntType.u32 4000000000)).2
          = [Event.bind 1 call (sqlite3_bind (some (okStmt [])) 1)]
      ∧ call = (if IntType.u32.sizeof ≤ 4 then BindCall.bind_int (wrapSigned 32 4000000000)
                else BindCall.bind_int64 (wrapSigned 64 4000000000))
      ∧ (sqlite3pp_column sampleConv [call.stored] 0 (FieldType.int IntType.u32)).1
          = Res.ok (Field.int 4000000000)
      ∧ (IntType.u32 = IntType.u32 → 2 ^ 31 ≤ (4000000000 : Int) →
          call = BindCall.bind_int (4000000000 - 2 ^ 32))
      ∧ (IntType.u32 = IntType.u64 → 2 ^ 63 ≤ (4000000000 : Int) →
          call = BindCall.bind_int64 (4000000000 - 2 ^ 64)) :=
  ⟨by decide, by decide,
   int_roundtrip sampleConv (some (okStmt [])) 1 IntType.u32 4000000000 (by decide)⟩

end Sqlite3pp
